import Mathlib

/-!
Verification of the `llm_guard` safety-checking library.

This file gives a shallow embedding of the repository's core modules —
`core/safety_guard.py`, `core/validators/pii.py`, `core/validators/toxicity.py`,
`core/validators/prompt_injection.py` — and proves or refutes the
specification's claims about them.

Modelling conventions:
* Python strings are `List Char` (all texts and patterns in the repository are
  ASCII, so `str.lower()` is modelled by ASCII lowering).
* Python floats are `ℚ`.  Every score in the code is built from decimal
  literals and the operations max, min, +, *; no comparison in the code is
  close enough to a floating-point rounding boundary for the ℚ model to
  diverge from float semantics.
* The regular expressions are embedded as an explicit AST (`RE`) executed by a
  backtracking matcher with Python `re` semantics: alternation prefers the
  left branch, quantifiers are greedy, `finditer` yields non-overlapping
  leftmost matches.  Each compiled pattern of the source is transcribed into
  this AST next to a comment quoting the original regex.
* Wall-clock latency is modelled as 0 (time is out of scope); the md5 cache
  fingerprint is modelled by its pre-image `text ++ ":" ++ checksStr`
  (md5 is treated as collision-free, which is what the code relies on).
-/

set_option autoImplicit false

/- Batteries marks the `Rat` arithmetic operations irreducible, which blocks
`decide` on concrete score computations; restore the default transparency. -/
attribute [local semireducible] Rat.add Rat.mul Rat.inv Rat.sub

namespace LlmGuard

/-! ## Character utilities (ASCII models of the Python predicates) -/

/-- ASCII digit, models `\d` on the repository's ASCII texts. -/
def isPyDigit (c : Char) : Bool := '0' ≤ c && c ≤ '9'

/-- ASCII uppercase letter, models `[A-Z]`. -/
def isUpperA (c : Char) : Bool := 'A' ≤ c && c ≤ 'Z'

/-- ASCII lowercase letter, models `[a-z]`. -/
def isLowerA (c : Char) : Bool := 'a' ≤ c && c ≤ 'z'

/-- ASCII letter, models `[A-Za-z]`. -/
def isAlphaA (c : Char) : Bool := isUpperA c || isLowerA c

/-- Python `\s` (ASCII part): space, tab, newline, carriage return,
vertical tab, form feed. -/
def isPySpace (c : Char) : Bool :=
  c = ' ' || c = '\t' || c = '\n' || c = '\r' || c = Char.ofNat 11 || c = Char.ofNat 12

/-- Python `\w` (ASCII part): letters, digits, underscore. -/
def isWordChar (c : Char) : Bool := isAlphaA c || isPyDigit c || c = '_'

/-- The apostrophe character (written via its code point). -/
def apos : Char := Char.ofNat 39

/-- `str.lower()` on one ASCII character. -/
def pyLowerChar (c : Char) : Char :=
  if isUpperA c then Char.ofNat (c.toNat + 32) else c

/-- `str.lower()` on an ASCII string. -/
def pyLower (s : List Char) : List Char := s.map pyLowerChar

/-- `str.upper()` on one ASCII character (used by `str.title()`). -/
def pyUpperChar (c : Char) : Char :=
  if isLowerA c then Char.ofNat (c.toNat - 32) else c

/-- Does `pat` occur as a prefix of `s`?  (Helper for substring search.) -/
def listStartsWith : List Char → List Char → Bool
  | [], _ => true
  | _ :: _, [] => false
  | a :: as, b :: bs => a = b && listStartsWith as bs

/-- Python's substring test `pat in hay`. -/
def containsL (hay pat : List Char) : Bool :=
  if listStartsWith pat hay then true
  else
    match hay with
    | [] => false
    | _ :: t => containsL t pat

/-- Python `str.title()`: first letter of each run of letters uppercased,
the rest lowercased (ASCII model). -/
def pyTitleAux : Bool → List Char → List Char
  | _, [] => []
  | prevAlpha, c :: t =>
    if isAlphaA c then
      (if prevAlpha then pyLowerChar c else pyUpperChar c) :: pyTitleAux true t
    else
      c :: pyTitleAux false t

/-- Python `str.title()` on an ASCII string. -/
def pyTitle (s : List Char) : List Char := pyTitleAux false s

/-- Python `min(a, b)` on rationals (kernel-computable). -/
def qmin (a b : ℚ) : ℚ := if a ≤ b then a else b

/-- Python `max(a, b)` on rationals (kernel-computable). -/
def qmax (a b : ℚ) : ℚ := if a ≤ b then b else a

instance {ε α : Type} [DecidableEq ε] [DecidableEq α] : DecidableEq (Except ε α)
  | .error x, .error y =>
    if h : x = y then isTrue (by rw [h]) else isFalse (fun hc => by cases hc; exact h rfl)
  | .error _, .ok _ => isFalse (fun hc => by cases hc)
  | .ok _, .error _ => isFalse (fun hc => by cases hc)
  | .ok x, .ok y =>
    if h : x = y then isTrue (by rw [h]) else isFalse (fun hc => by cases hc; exact h rfl)

/-- Python `str.split()` (no argument): split on runs of whitespace,
discarding empty pieces. -/
def pySplit (s : List Char) : List (List Char) :=
  (s.splitOnP (fun c => isPySpace c)).filter (fun w => !w.isEmpty)

/-- `" ".join(text.split())`: whitespace-normalised text. -/
def pySplitJoin (s : List Char) : List Char :=
  List.intercalate [' '] (pySplit s)

/-! ## A small regex engine with Python `re` backtracking semantics -/

/-- Regular-expression AST.  `cls` is a single-character class, `wb` is the
word boundary `\b`, `rep a lo hi` is the greedy quantifier `a{lo,hi}`
(`hi = none` meaning unbounded). -/
inductive RE where
  | eps
  | cls (p : Char → Bool)
  | seq (a b : RE)
  | alt (a b : RE)
  | opt (a : RE)
  | rep (a : RE) (lo : Nat) (hi : Option Nat)
  | wb

/-- Word-boundary test between the previous character and the rest of the
input. -/
def boundaryOk (prev : Option Char) (rest : List Char) : Bool :=
  let a := match prev with | some c => isWordChar c | none => false
  let b := match rest with | c :: _ => isWordChar c | [] => false
  a != b

/-- Greedy iteration of a quantifier body `m` (`a{lo,hi}` semantics): prefer
more repetitions, in Python backtracking preference order.  `fuel` bounds the
number of iterations; callers pass `s.length + 1`, which is always enough for
the repository's patterns, whose quantified bodies consume at least one
character whenever they match. -/
def repIter (m : Option Char → List Char → List (Option Char × List Char)) :
    Nat → Nat → Option Nat → Option Char → List Char → List (Option Char × List Char)
  | 0, _, _, _, _ => []
  | _ + 1, _, some 0, p, s => [(p, s)]
  | fuel + 1, 0, hi, p, s =>
    ((m p s).flatMap fun st => repIter m fuel 0 (hi.map (· - 1)) st.1 st.2) ++ [(p, s)]
  | fuel + 1, lo + 1, hi, p, s =>
    (m p s).flatMap fun st => repIter m fuel lo (hi.map (· - 1)) st.1 st.2

/-- All ways a regex can match a prefix of `s`, as `(last char consumed,
remaining suffix)` states, in Python backtracking preference order: left
alternative first, greedy quantifiers prefer more repetitions. -/
def reMatch : RE → Option Char → List Char → List (Option Char × List Char)
  | .eps, p, s => [(p, s)]
  | .cls f, _, s =>
    match s with
    | [] => []
    | c :: t => if f c then [(some c, t)] else []
  | .seq a b, p, s =>
    (reMatch a p s).flatMap fun st => reMatch b st.1 st.2
  | .alt a b, p, s => reMatch a p s ++ reMatch b p s
  | .opt a, p, s => reMatch a p s ++ [(p, s)]
  | .wb, p, s => if boundaryOk p s then [(p, s)] else []
  | .rep a lo hi, p, s => repIter (reMatch a) (s.length + 1) lo hi p s

/-- Length of the preferred match of `r` at the current position, if any
(`re.match` semantics). -/
def matchLen (r : RE) (prev : Option Char) (s : List Char) : Option Nat :=
  match reMatch r prev s with
  | [] => none
  | (_, rest) :: _ => some (s.length - rest.length)

/-- `re.search` scanning helper: try to match at each start position. -/
def searchAux (r : RE) : Option Char → List Char → Bool
  | prev, [] => (matchLen r prev []).isSome
  | prev, c :: t => (matchLen r prev (c :: t)).isSome || searchAux r (some c) t

/-- Python `pattern.search(s) is not None`. -/
def reSearch (r : RE) (s : List Char) : Bool := searchAux r none s

/-- `re.finditer` scanning helper.  Yields `(start, length, matched chars)`
triples of the non-overlapping leftmost matches. -/
def findIterAux (r : RE) : Nat → Option Char → List Char → Nat → List (Nat × Nat × List Char)
  | 0, _, _, _ => []
  | fuel + 1, prev, s, pos =>
    match matchLen r prev s, s with
    | some (l + 1), _ =>
      let m := s.take (l + 1)
      (pos, l + 1, m) :: findIterAux r fuel (m.getLast?.orElse fun _ => prev) (s.drop (l + 1)) (pos + l + 1)
    | some 0, [] => [(pos, 0, [])]
    | some 0, c :: t => (pos, 0, []) :: findIterAux r fuel (some c) t (pos + 1)
    | none, [] => []
    | none, c :: t => findIterAux r fuel (some c) t (pos + 1)

/-- Python `list(pattern.finditer(s))` as `(start, length, matched chars)`. -/
def findIter (r : RE) (s : List Char) : List (Nat × Nat × List Char) :=
  findIterAux r (s.length + 1) none s 0

/-- `re.sub` with a constant replacement: replace every non-overlapping
leftmost match of `r` by `repl`. -/
def subAllAux (r : RE) (repl : List Char) : Nat → Option Char → List Char → List Char
  | 0, _, s => s
  | fuel + 1, prev, s =>
    match matchLen r prev s, s with
    | some (l + 1), _ =>
      repl ++ subAllAux r repl fuel ((s.take (l + 1)).getLast?.orElse fun _ => prev) (s.drop (l + 1))
    | some 0, [] => repl
    | some 0, c :: t => repl ++ c :: subAllAux r repl fuel (some c) t
    | none, [] => []
    | none, c :: t => c :: subAllAux r repl fuel (some c) t

/-- Python `pattern.sub(repl, s)` for a constant `repl`. -/
def subAll (r : RE) (repl : List Char) (s : List Char) : List Char :=
  subAllAux r repl (s.length + 1) none s

/-! ### Constructors for transcribing the source's patterns -/

/-- Single literal character. -/
def lit1 (c : Char) : RE := .cls (fun x => x = c)

/-- Literal string. -/
def reLit (s : List Char) : RE := s.foldr (fun c r => .seq (lit1 c) r) .eps

/-- Single literal character under `re.IGNORECASE`. -/
def lit1CI (c : Char) : RE := .cls (fun x => pyLowerChar x = pyLowerChar c)

/-- Literal string under `re.IGNORECASE`. -/
def reLitCI (s : List Char) : RE := s.foldr (fun c r => .seq (lit1CI c) r) .eps

/-- Concatenation of a list of regexes. -/
def reCat (l : List RE) : RE := l.foldr .seq .eps

/-- A class that matches nothing (empty alternation base). -/
def reFail : RE := .cls (fun _ => false)

/-- Alternation of a list of regexes, preferring earlier entries. -/
def reAnyOf (l : List RE) : RE := l.foldr .alt reFail

/-- Character class given by an explicit list. -/
def clsOf (l : List Char) : RE := .cls (fun c => l.contains c)

/-- Character class given by an explicit list, under `re.IGNORECASE`. -/
def clsOfCI (l : List Char) : RE := .cls (fun c => l.contains (pyLowerChar c) || l.contains c)

/-- `\d`. -/
def reDigit : RE := .cls isPyDigit

/-- `\s`. -/
def reSpace : RE := .cls isPySpace

/-- `r{n}`. -/
def reN (r : RE) (n : Nat) : RE := .rep r n (some n)

/-- `r{lo,hi}`. -/
def reRange (r : RE) (lo hi : Nat) : RE := .rep r lo (some hi)

/-- `r{lo,}`. -/
def reAtLeast (r : RE) (lo : Nat) : RE := .rep r lo none

/-- `r+`. -/
def rePlus (r : RE) : RE := .rep r 1 none

/-- `r*`. -/
def reStar (r : RE) : RE := .rep r 0 none

/-! ## PII validator (`core/validators/pii.py`, class `PIIValidator`) -/

/-- One entry of the `all_patterns` table: regex, fixed risk score, redaction
label, optional `context_required` substrings, and whether the entry carries
the credit-card checksum `validator` (only `credit_card` does).  The
reporting-only fields `description` and the masked `found_pii` listing are
omitted; no claim mentions them. -/
structure PiiEntry where
  name : String
  pat : RE
  risk : ℚ
  label : String
  ctx : Option (List String) := none
  useLuhn : Bool := false

/-- `ssn`: `\b\d{3}-\d{2}-\d{4}\b|\b\d{9}\b`, risk 1.0. -/
def ssnRE : RE :=
  .alt (reCat [.wb, reN reDigit 3, lit1 '-', reN reDigit 2, lit1 '-', reN reDigit 4, .wb])
       (reCat [.wb, reN reDigit 9, .wb])

/-- `credit_card`: `\b(?:\d{4}[\s-]?){3}\d{4}\b`, risk 1.0, Luhn-checked. -/
def ccRE : RE :=
  reCat [.wb, reN (reCat [reN reDigit 4, .opt (.cls (fun c => isPySpace c || c = '-'))]) 3,
         reN reDigit 4, .wb]

/-- `email`: `\b[A-Za-z0-9._%+-]+@[A-Za-z0-9.-]+\.[A-Z|a-z]{2,}\b`, risk 0.7.
(The final class literally contains the `|` character, as in the source.) -/
def emailRE : RE :=
  reCat [.wb,
         rePlus (.cls (fun c => isAlphaA c || isPyDigit c || c = '.' || c = '_' || c = '%' || c = '+' || c = '-')),
         lit1 '@',
         rePlus (.cls (fun c => isAlphaA c || isPyDigit c || c = '.' || c = '-')),
         lit1 '.',
         reAtLeast (.cls (fun c => isUpperA c || c = '|' || isLowerA c)) 2,
         .wb]

/-- `phone`:
`(\+?1?\s?)?(\(\d{3}\)|\d{3})[\s.-]?\d{3}[\s.-]?\d{4}(?:\s?(?:ext|x|extension)\s?\d{1,5})?`,
risk 0.8. -/
def phoneRE : RE :=
  let sep : RE := .opt (.cls (fun c => isPySpace c || c = '.' || c = '-'))
  reCat [.opt (reCat [.opt (lit1 '+'), .opt (lit1 '1'), .opt reSpace]),
         .alt (reCat [lit1 '(', reN reDigit 3, lit1 ')']) (reN reDigit 3),
         sep, reN reDigit 3, sep, reN reDigit 4,
         .opt (reCat [.opt reSpace,
                      reAnyOf [reLit "ext".data, reLit "x".data, reLit "extension".data],
                      .opt reSpace, reRange reDigit 1 5])]

/-- `ip_address`:
`\b(?:(?:25[0-5]|2[0-4][0-9]|[01]?[0-9][0-9]?)\.){3}(?:25[0-5]|2[0-4][0-9]|[01]?[0-9][0-9]?)\b`,
risk 0.6. -/
def ipRE : RE :=
  let octet : RE :=
    reAnyOf [reCat [reLit "25".data, clsOf ['0', '1', '2', '3', '4', '5']],
             reCat [lit1 '2', clsOf ['0', '1', '2', '3', '4'], reDigit],
             reCat [.opt (clsOf ['0', '1']), reDigit, .opt reDigit]]
  reCat [.wb, reN (reCat [octet, lit1 '.']) 3, octet, .wb]

/-- `date_of_birth`:
`\b(?:DOB|Date of Birth|Born|Birthday)[\s:]*(?:\d{1,2}[-\/]\d{1,2}[-\/]\d{2,4}|\d{4}[-\/]\d{1,2}[-\/]\d{1,2})`
(`\/` here denotes the plain `/` of the source), risk 0.9. -/
def dobRE : RE :=
  let dsep : RE := clsOf ['-', '/']
  reCat [.wb,
         reAnyOf [reLit "DOB".data, reLit "Date of Birth".data, reLit "Born".data,
                  reLit "Birthday".data],
         reStar (.cls (fun c => isPySpace c || c = ':')),
         .alt (reCat [reRange reDigit 1 2, dsep, reRange reDigit 1 2, dsep, reRange reDigit 2 4])
              (reCat [reN reDigit 4, dsep, reRange reDigit 1 2, dsep, reRange reDigit 1 2])]

/-- `passport`: `\b[A-Z]{1,2}\d{6,9}\b`, risk 1.0. -/
def passportRE : RE :=
  reCat [.wb, reRange (.cls isUpperA) 1 2, reRange reDigit 6 9, .wb]

/-- `driver_license`: `\b[A-Z]{1,2}\d{5,8}\b`, risk 0.9,
`context_required = ['license', 'DL', 'driver']`. -/
def dlRE : RE :=
  reCat [.wb, reRange (.cls isUpperA) 1 2, reRange reDigit 5 8, .wb]

/-- `bank_account`: `\b\d{8,17}\b`, risk 0.9,
`context_required = ['account', 'bank', 'routing']`. -/
def bankRE : RE := reCat [.wb, reRange reDigit 8 17, .wb]

/-- `address` (IGNORECASE):
`\b\d{1,5}\s+[A-Za-z\s]+(?:Street|St|Avenue|Ave|Road|Rd|Lane|Ln|Drive|Dr|Court|Ct|Boulevard|Blvd)\b`,
risk 0.7. -/
def addressRE : RE :=
  reCat [.wb, reRange reDigit 1 5, rePlus reSpace,
         rePlus (.cls (fun c => isAlphaA c || isPySpace c)),
         reAnyOf (["Street", "St", "Avenue", "Ave", "Road", "Rd", "Lane", "Ln", "Drive",
                   "Dr", "Court", "Ct", "Boulevard", "Blvd"].map (fun w => reLitCI w.data)),
         .wb]

/-- `zipcode`: `\b\d{5}(?:-\d{4})?\b`, risk 0.4,
`context_required = ['zip', 'postal', 'code']`. -/
def zipRE : RE :=
  reCat [.wb, reN reDigit 5, .opt (reCat [lit1 '-', reN reDigit 4]), .wb]

/-- `medical_record` (IGNORECASE): `\bMRN[\s:]?\d{6,10}\b`, risk 1.0. -/
def mrnRE : RE :=
  reCat [.wb, reLitCI "MRN".data, .opt (.cls (fun c => isPySpace c || c = ':')),
         reRange reDigit 6 10, .wb]

/-- `insurance_id` (IGNORECASE): `\b(?:Policy|Member|Insurance)[\s#:]+[A-Z0-9]{6,}\b`,
risk 0.9.  (Under IGNORECASE the class `[A-Z0-9]` also matches lowercase.) -/
def insuranceRE : RE :=
  reCat [.wb,
         reAnyOf [reLitCI "Policy".data, reLitCI "Member".data, reLitCI "Insurance".data],
         rePlus (.cls (fun c => isPySpace c || c = '#' || c = ':')),
         reAtLeast (.cls (fun c => isAlphaA c || isPyDigit c)) 6,
         .wb]

/-- `routing_number`: `\b\d{9}\b`, risk 0.8,
`context_required = ['routing', 'aba', 'rtn']`. -/
def routingRE : RE := reCat [.wb, reN reDigit 9, .wb]

/-- `bitcoin_address`: `\b[13][a-km-zA-HJ-NP-Z1-9]{25,34}\b`, risk 0.7. -/
def bitcoinRE : RE :=
  reCat [.wb, clsOf ['1', '3'],
         reRange (.cls (fun c =>
           ('a' ≤ c && c ≤ 'k') || ('m' ≤ c && c ≤ 'z') || ('A' ≤ c && c ≤ 'H') ||
           ('J' ≤ c && c ≤ 'N') || ('P' ≤ c && c ≤ 'Z') || ('1' ≤ c && c ≤ '9'))) 25 34,
         .wb]

/-- The `ssn` entry. -/
def ssnEntry : PiiEntry := ⟨"ssn", ssnRE, 1, "[SSN]", none, false⟩

/-- The `credit_card` entry (the only one with a checksum `validator`). -/
def ccEntry : PiiEntry := ⟨"credit_card", ccRE, 1, "[CREDIT_CARD]", none, true⟩

/-- The `email` entry. -/
def emailEntry : PiiEntry := ⟨"email", emailRE, 7/10, "[EMAIL]", none, false⟩

/-- The `phone` entry. -/
def phoneEntry : PiiEntry := ⟨"phone", phoneRE, 4/5, "[PHONE]", none, false⟩

/-- The `ip_address` entry. -/
def ipEntry : PiiEntry := ⟨"ip_address", ipRE, 3/5, "[IP_ADDRESS]", none, false⟩

/-- The `date_of_birth` entry. -/
def dobEntry : PiiEntry := ⟨"date_of_birth", dobRE, 9/10, "[DATE_OF_BIRTH]", none, false⟩

/-- The `passport` entry. -/
def passportEntry : PiiEntry := ⟨"passport", passportRE, 1, "[PASSPORT]", none, false⟩

/-- The `driver_license` entry, with `context_required = ['license', 'DL',
'driver']` exactly as written in the source (note the uppercase `DL`). -/
def dlEntry : PiiEntry :=
  ⟨"driver_license", dlRE, 9/10, "[DRIVER_LICENSE]", some ["license", "DL", "driver"], false⟩

/-- The `bank_account` entry. -/
def bankEntry : PiiEntry :=
  ⟨"bank_account", bankRE, 9/10, "[BANK_ACCOUNT]", some ["account", "bank", "routing"], false⟩

/-- The `address` entry. -/
def addressEntry : PiiEntry := ⟨"address", addressRE, 7/10, "[ADDRESS]", none, false⟩

/-- The `zipcode` entry. -/
def zipEntry : PiiEntry := ⟨"zipcode", zipRE, 2/5, "[ZIPCODE]", some ["zip", "postal", "code"], false⟩

/-- The `medical_record` entry. -/
def mrnEntry : PiiEntry := ⟨"medical_record", mrnRE, 1, "[MEDICAL_RECORD]", none, false⟩

/-- The `insurance_id` entry. -/
def insuranceEntry : PiiEntry := ⟨"insurance_id", insuranceRE, 9/10, "[INSURANCE_ID]", none, false⟩

/-- The `routing_number` entry. -/
def routingEntry : PiiEntry :=
  ⟨"routing_number", routingRE, 4/5, "[ROUTING_NUMBER]", some ["routing", "aba", "rtn"], false⟩

/-- The `bitcoin_address` entry. -/
def bitcoinEntry : PiiEntry := ⟨"bitcoin_address", bitcoinRE, 7/10, "[CRYPTO_ADDRESS]", none, false⟩

/-- `PIIValidator.all_patterns = {**pii_patterns, **medical_patterns,
**financial_patterns}` in Python dict insertion order. -/
def piiAllPatterns : List PiiEntry :=
  [ssnEntry, ccEntry, emailEntry, phoneEntry, ipEntry, dobEntry, passportEntry, dlEntry,
   bankEntry, addressEntry, zipEntry, mrnEntry, insuranceEntry, routingEntry, bitcoinEntry]

/-- Luhn doubling step: double, subtract 9 when the result exceeds 9. -/
def luhnDouble (d : Nat) : Nat :=
  let x := d * 2
  if x > 9 then x - 9 else x

/-- `PIIValidator._validate_credit_card`: strip non-digits, require length in
`[13, 19]`, double every second digit from the rightmost (indices
`len-2, len-4, …` in the source loop), subtract 9 from doubled results
greater than 9, and require the digit sum to be divisible by 10. -/
def luhnValid (m : List Char) : Bool :=
  let ds := (m.filter isPyDigit).map (fun c => c.toNat - '0'.toNat)
  if ds.length < 13 || ds.length > 19 then false
  else
    (ds.reverse.enum.map (fun p => if p.1 % 2 = 1 then luhnDouble p.2 else p.2)).sum % 10 = 0

/-- First name indicator: `\b(?:Mr|Mrs|Ms|Miss|Dr|Prof)\.?\s+[A-Z][a-z]+\b`
(case-sensitive). -/
def nameInd1 : RE :=
  reCat [.wb,
         reAnyOf [reLit "Mr".data, reLit "Mrs".data, reLit "Ms".data, reLit "Miss".data,
                  reLit "Dr".data, reLit "Prof".data],
         .opt (lit1 '.'), rePlus reSpace, .cls isUpperA, rePlus (.cls isLowerA), .wb]

/-- Second name indicator: `\b[A-Z][a-z]+\s+[A-Z][a-z]+\b` (case-sensitive). -/
def nameInd2 : RE :=
  reCat [.wb, .cls isUpperA, rePlus (.cls isLowerA), rePlus reSpace,
         .cls isUpperA, rePlus (.cls isLowerA), .wb]

/-- `name_context_words` (a set; only membership of any element matters).
The entry `i'm` is written with an explicit apostrophe character. -/
def nameCtxWords : List (List Char) :=
  ["name".data, "called".data, "named".data, "refer".data, "i am".data,
   ['i', apos, 'm'], "my name".data, "contact".data, "reach".data,
   "ask for".data, "speak to".data]

/-- `name_intro_pattern` (IGNORECASE):
`\b(?:i am|i\'m|my name is|call me|this is)\s+[A-Z][a-z]+\b`.
Under IGNORECASE both `[A-Z]` and `[a-z]` match any ASCII letter. -/
def nameIntro : RE :=
  reCat [.wb,
         reAnyOf [reLitCI "i am".data, reLitCI ['i', apos, 'm'], reLitCI "my name is".data,
                  reLitCI "call me".data, reLitCI "this is".data],
         rePlus reSpace, .cls isAlphaA, rePlus (.cls isAlphaA), .wb]

/-- `PIIValidator._detect_names`: 0.3 per matching name indicator, +0.2 if any
context word occurs in the lowercased text, +0.4 for an explicit
introduction, capped at 1.0. -/
def detectNames (s : List Char) : ℚ :=
  let score : ℚ :=
    (if reSearch nameInd1 s then (3 : ℚ)/10 else 0) +
    (if reSearch nameInd2 s then (3 : ℚ)/10 else 0)
  let score := if nameCtxWords.any (fun w => containsL (pyLower s) w) then score + 1/5 else score
  let score := if reSearch nameIntro s then score + 2/5 else score
  qmin 1 score

/-- Context gate of `PIIValidator.validate`/`redact`: an entry with a
`context_required` list is enabled iff some context substring — compared
exactly as written in the table — occurs in the lowercased text. -/
def piiCtxOk (e : PiiEntry) (s : List Char) : Bool :=
  match e.ctx with
  | none => true
  | some l => l.any (fun w => containsL (pyLower s) w.data)

/-- The matches of an entry that survive its checksum validator (only
`credit_card` has one: the Luhn check). -/
def entryValidMatches (e : PiiEntry) (s : List Char) : List (Nat × Nat × List Char) :=
  let ms := findIter e.pat s
  if e.useLuhn then ms.filter (fun m => luhnValid m.2.2) else ms

/-- Does an entry contribute to `validate`'s result on `s`?  (Its regex has a
match, its context gate passes, and some match survives the checksum.) -/
def entryContributes (e : PiiEntry) (s : List Char) : Bool :=
  piiCtxOk e s && !(entryValidMatches e s).isEmpty

/-- Result of `PIIValidator.validate`: aggregate risk score, the `pii_counts`
mapping in insertion order, and the `reason` string.  (`found_pii` and
`total_pii_items` are reporting-only and omitted.) -/
structure PiiOut where
  score : ℚ
  counts : List (String × Nat)
  reason : Option String
  deriving DecidableEq, Repr

/-- The per-entry accumulation step of `PIIValidator.validate`: a contributing
entry appends `(type, number of valid matches)` to `pii_counts` and raises
`total_risk` to at least its `risk_score` (`total_risk = max(total_risk,
risk_score)`). -/
def piiStep (s : List Char) (acc : List (String × Nat) × ℚ) (e : PiiEntry) :
    List (String × Nat) × ℚ :=
  if entryContributes e s then
    (acc.1 ++ [(e.name, (entryValidMatches e s).length)], qmax acc.2 e.risk)
  else acc

/-- `PIIValidator.validate`. -/
def piiValidate (s : List Char) : PiiOut :=
  let acc := piiAllPatterns.foldl (piiStep s) ([], 0)
  let acc :=
    if detectNames s > 1/2 then (acc.1 ++ [("potential_names", 1)], qmax acc.2 (3/5)) else acc
  let risk : ℚ := if acc.1.length > 1 then qmin 1 (acc.2 * (6/5)) else acc.2
  let reason : Option String :=
    if risk > 1/2 then
      let tys := acc.1.map Prod.fst
      if tys.length = 1 then
        some ((pyTitle ((tys.headD "").data.map (fun c => if c = '_' then ' ' else c))).asString
              ++ " detected")
      else
        some ("Multiple PII types detected: " ++ String.intercalate ", " (tys.take 3))
    else none
  ⟨risk, acc.1, reason⟩

/-- The `(span, label)` replacement pairs one entry of the inner loop of
`PIIValidator.redact` collects: its regex matches, gated by the same context
and checksum checks as `validate`. -/
def entryReplacements (s : List Char) (e : PiiEntry) : List ((Nat × Nat) × String) :=
  (findIter e.pat s).filterMap fun m =>
    if !piiCtxOk e s then none
    else if e.useLuhn && !luhnValid m.2.2 then none
    else some ((m.1, m.1 + m.2.1), e.label)

/-- The full `(span, label)` replacement list collected by
`PIIValidator.redact`, in `all_patterns` order. -/
def piiReplacements (s : List Char) : List ((Nat × Nat) × String) :=
  piiAllPatterns.flatMap (entryReplacements s)

/-- Stable insertion of one replacement into a list sorted by span start
descending (ties keep earlier-collected entries first, like Python's stable
`list.sort(key=…, reverse=True)`). -/
def insertDesc (x : (Nat × Nat) × String) :
    List ((Nat × Nat) × String) → List ((Nat × Nat) × String)
  | [] => [x]
  | y :: t => if x.1.1 ≤ y.1.1 then y :: insertDesc x t else x :: y :: t

/-- Stable sort by span start, descending. -/
def sortDesc (l : List ((Nat × Nat) × String)) : List ((Nat × Nat) × String) :=
  l.foldl (fun acc x => insertDesc x acc) []

/-- The replacement loop of `redact`: splice each `(start, end) → label`
into the evolving text, rightmost span first. -/
def applySplices (s : List Char) (rs : List ((Nat × Nat) × String)) : List Char :=
  rs.foldl (fun cur r => cur.take r.1.1 ++ r.2.data ++ cur.drop r.1.2) s

/-- `PIIValidator.redact` (with no `custom_labels`): splice the gated
replacements in descending-start order, then, if the name heuristic on the
original text exceeds 0.5, substitute the name-indicator patterns with
`[NAME]` (first indicator first, as in the source loop). -/
def piiRedact (s : List Char) : List Char :=
  let red := applySplices s (sortDesc (piiReplacements s))
  if detectNames s > 1/2 then
    subAll nameInd2 "[NAME]".data (subAll nameInd1 "[NAME]".data red)
  else red

/-! ## Toxicity validator (`core/validators/toxicity.py`, class
`ToxicityValidator`).  `_generate_variations` returns its input unchanged, so
each listed pattern is compiled exactly once. -/

/-- `\s+` between words of a pattern. -/
def sp1 : RE := rePlus reSpace

/-- Alternation of case-insensitive literal words. -/
def wordsCI (l : List String) : RE := reAnyOf (l.map (fun w => reLitCI w.data))

/-- One toxicity pattern with its base score. -/
structure ToxPattern where
  pat : RE
  score : ℚ

/-- One toxicity category: name, weight, pattern list. -/
structure ToxCategory where
  name : String
  weight : ℚ
  patterns : List ToxPattern

/-- `profanity` patterns (IGNORECASE), weight 0.8:
`\bf[*u]ck` 0.8, `\bsh[*i]t` 0.6, `\bd[*a]mn` 0.4, `\bhell\b` 0.3,
`\bcrap` 0.3, `\b[a@]ss\b` 0.5, `\bb[*i]tch` 0.7. -/
def profanityPats : List ToxPattern :=
  [⟨reCat [.wb, lit1CI 'f', clsOfCI ['*', 'u'], lit1CI 'c', lit1CI 'k'], 4/5⟩,
   ⟨reCat [.wb, lit1CI 's', lit1CI 'h', clsOfCI ['*', 'i'], lit1CI 't'], 3/5⟩,
   ⟨reCat [.wb, lit1CI 'd', clsOfCI ['*', 'a'], lit1CI 'm', lit1CI 'n'], 2/5⟩,
   ⟨reCat [.wb, reLitCI "hell".data, .wb], 3/10⟩,
   ⟨reCat [.wb, reLitCI "crap".data], 3/10⟩,
   ⟨reCat [.wb, clsOfCI ['a', '@'], lit1CI 's', lit1CI 's', .wb], 1/2⟩,
   ⟨reCat [.wb, lit1CI 'b', clsOfCI ['*', 'i'], lit1CI 't', lit1CI 'c', lit1CI 'h'], 7/10⟩]

/-- `hate_speech` patterns (IGNORECASE), weight 1.0. -/
def hatePats : List ToxPattern :=
  let groups := wordsCI ["jews", "muslims", "christians", "blacks", "whites", "asians"]
  let allOpt : RE := .opt (reCat [reLitCI "all".data, sp1])
  [⟨reCat [.wb, wordsCI ["hate", "despise", "detest"], sp1, allOpt, groups], 19/20⟩,
   ⟨reCat [.wb, wordsCI ["kill", "eliminate", "destroy"], sp1, allOpt, groups], 1⟩,
   ⟨reCat [.wb, reLitCI "genocide".data, .wb], 9/10⟩,
   ⟨reCat [.wb, reLitCI "ethnic".data, sp1, reLitCI "cleansing".data, .wb], 19/20⟩,
   ⟨reCat [.wb, reLitCI "master".data, sp1, reLitCI "race".data, .wb], 9/10⟩,
   ⟨reCat [.wb, reLitCI "racial".data, sp1, reLitCI "purity".data, .wb], 9/10⟩]

/-- `violence` patterns (IGNORECASE), weight 0.9. -/
def violencePats : List ToxPattern :=
  let targets := wordsCI ["you", "him", "her", "them"]
  [⟨reCat [.wb, wordsCI ["kill", "murder", "stab", "shoot"], sp1, targets], 9/10⟩,
   ⟨reCat [.wb, wordsCI ["punch", "beat", "attack"], sp1, targets], 7/10⟩,
   ⟨reCat [.wb, lit1CI 'I', sp1,
           .alt (reLitCI "will".data)
                (reCat [reLitCI "am".data, sp1, reLitCI "going".data, sp1, reLitCI "to".data]),
           sp1, wordsCI ["kill", "murder", "hurt"]], 19/20⟩,
   ⟨reCat [.wb, wordsCI ["bomb", "explosion", "terrorist"], sp1, wordsCI ["threat", "attack"]], 9/10⟩,
   ⟨reCat [.wb, reLitCI "weapon".data, sp1,
           .alt (reCat [reLitCI "of".data, sp1, reLitCI "mass".data, sp1,
                        reLitCI "destruction".data])
                (reLitCI "WMD".data)], 9/10⟩,
   ⟨reCat [.wb, wordsCI ["torture", "mutilate"], .wb], 17/20⟩]

/-- `harassment` patterns (IGNORECASE), weight 0.85.  The source's `you\'re`
is written with an explicit apostrophe character. -/
def harassmentPats : List ToxPattern :=
  [⟨reCat [.wb,
           .alt (reCat [reLitCI "you".data, sp1, reLitCI "are".data])
                (reLitCI ['y', 'o', 'u', apos, 'r', 'e']),
           sp1, wordsCI ["stupid", "dumb", "idiot", "moron", "retard"]], 7/10⟩,
   ⟨reCat [.wb, reLitCI "nobody".data, sp1,
           reAnyOf [reLitCI "likes".data, reLitCI "wants".data,
                    reCat [reLitCI "cares".data, sp1, reLitCI "about".data]],
           sp1, reLitCI "you".data, .wb], 3/4⟩,
   ⟨reCat [.wb, .opt (reCat [reLitCI "go".data, sp1]), reLitCI "kill".data, sp1,
           reLitCI "yourself".data, .wb], 19/20⟩,
   ⟨reCat [.wb, reLitCI "you".data, sp1, reLitCI "should".data, sp1,
           wordsCI ["die", "disappear"], .wb], 9/10⟩,
   ⟨reCat [.wb, reLitCI "worthless".data, sp1,
           wordsCI ["person", "human", "individual"], .wb], 4/5⟩,
   ⟨reCat [.wb, wordsCI ["stalking", "harassing", "threatening"], .wb], 17/20⟩]

/-- `self_harm` patterns (IGNORECASE), weight 1.0. -/
def selfHarmPats : List ToxPattern :=
  [⟨reCat [.wb,
           .alt (reCat [reLitCI "want".data, sp1, reLitCI "to".data])
                (reCat [reLitCI "going".data, sp1, reLitCI "to".data]),
           sp1,
           reAnyOf [reLitCI "die".data,
                    reCat [reLitCI "end".data, sp1, reLitCI "it".data],
                    reCat [reLitCI "kill".data, sp1, reLitCI "myself".data]]], 19/20⟩,
   ⟨reCat [.wb, reLitCI "suicid".data, .alt (lit1CI 'e') (reLitCI "al".data), .wb], 9/10⟩,
   ⟨reCat [.wb, reLitCI "self".data, .opt (.cls (fun c => isPySpace c || c = '-')),
           reLitCI "harm".data], 9/10⟩,
   ⟨reCat [.wb, reLitCI "cut".data, .opt (reLitCI "ting".data), sp1,
           reLitCI "myself".data, .wb], 19/20⟩,
   ⟨reCat [.wb, reLitCI "life".data, sp1, reLitCI "is".data, sp1, reLitCI "not".data, sp1,
           reLitCI "worth".data, sp1, reLitCI "living".data, .wb], 17/20⟩,
   ⟨reCat [.wb, reLitCI "end".data, sp1, reLitCI "my".data, sp1, reLitCI "life".data, .wb],
    19/20⟩]

/-- The `categories` table, in dict insertion order. -/
def toxCategories : List ToxCategory :=
  [⟨"profanity", 4/5, profanityPats⟩,
   ⟨"hate_speech", 1, hatePats⟩,
   ⟨"violence", 9/10, violencePats⟩,
   ⟨"harassment", 17/20, harassmentPats⟩,
   ⟨"self_harm", 1, selfHarmPats⟩]

/-- The punctuation class of `_preprocess`. -/
def isPunct6 (c : Char) : Bool :=
  c = ',' || c = '.' || c = '!' || c = '?' || c = ';' || c = ':'

/-- `re.sub(r'\s*([,.!?;:])\s*', r'\1 ', s)`: each punctuation mark, with any
surrounding whitespace, becomes the mark followed by one space. -/
def punctSubAux : Nat → List Char → List Char
  | 0, s => s
  | fuel + 1, s =>
    let rest := s.dropWhile isPySpace
    match rest with
    | p :: t =>
      if isPunct6 p then p :: ' ' :: punctSubAux fuel (t.dropWhile isPySpace)
      else
        match s with
        | [] => []
        | c :: t' => c :: punctSubAux fuel t'
    | [] => s

/-- Zero-width characters removed by `_preprocess`. -/
def stripZW (s : List Char) : List Char :=
  s.filter (fun c =>
    !(c = Char.ofNat 0x200b || c = Char.ofNat 0x200c || c = Char.ofNat 0x200d ||
      c = Char.ofNat 0xfeff))

/-- `ToxicityValidator._preprocess`: whitespace-normalise, strip zero-width
characters, normalise punctuation spacing. -/
def toxPreprocess (s : List Char) : List Char :=
  let s := pySplitJoin s
  let s := stripZW s
  punctSubAux (s.length + 1) s

/-- `context_modifiers` (searched IGNORECASE over the raw text):
educational/fictional/quotation/historical framing. -/
def toxCtxModifiers : List (RE × ℚ) :=
  [(reCat [.wb, wordsCI ["educational", "academic", "research", "medical", "clinical"], .wb],
    -(3/10)),
   (reCat [.wb, wordsCI ["fiction", "story", "novel", "character", "plot"], .wb], -(1/5)),
   (reCat [.wb, wordsCI ["quote", "citation", "reference"], .wb], -(1/5)),
   (reCat [.wb, wordsCI ["historical", "history", "past"], .wb], -(3/20))]

/-- `(.)\1{3,}`: some character other than newline repeated at least four
times consecutively. -/
def hasRepeat4 : List Char → Bool
  | a :: b :: c :: d :: t =>
    (a ≠ '\n' && a = b && b = c && c = d) || hasRepeat4 (b :: c :: d :: t)
  | _ => false

/-- `intensity_modifiers` (searched case-sensitively over the raw text),
except the back-reference pattern `(.)\1{3,}`, modelled by `hasRepeat4`. -/
def toxIntensityREs : List (RE × ℚ) :=
  [(reAtLeast (lit1 '!') 2, 1/10),
   (reCat [.wb, reAtLeast (.cls isUpperA) 4, .wb], 1/10),
   (reAtLeast (clsOf ['!', '?']) 3, 1/10)]

/-- `academic_contexts` word set. -/
def academicCtx : List String :=
  ["research", "study", "analysis", "examine", "investigate", "medical", "clinical",
   "scientific", "academic", "educational"]

/-- `fictional_contexts` word set. -/
def fictionalCtx : List String :=
  ["story", "novel", "fiction", "character", "plot", "movie", "book", "scene",
   "dialogue", "narrative"]

/-- Maximum of a list of rationals (`max` of a nonempty Python list; 0 for
the empty list, which the callers never hit). -/
def qMaxList : List ℚ → ℚ
  | [] => 0
  | h :: t => t.foldl qmax h

/-- Python `max(items, key=f)`: first element attaining the maximal key. -/
def argmaxBy {α : Type} (f : α → ℚ) : List α → Option α
  | [] => none
  | h :: t => some (t.foldl (fun best x => if f x > f best then x else best) h)

/-- Per-category weighted scores of the patterns matching the preprocessed
text (the `category_scores` dict restricted to categories that matched). -/
def toxCatScores (p : List Char) : List (String × List ℚ) :=
  (toxCategories.map fun cat =>
    (cat.name,
     (cat.patterns.filter (fun tp => reSearch tp.pat p)).map (fun tp => tp.score * cat.weight))).filter
    (fun cs => !cs.2.isEmpty)

/-- `ToxicityValidator.validate`, returning the final score and the `reason`
detail (the only detail `SafetyGuard.check` reads; the other detail fields
are reporting-only). -/
def toxValidate (s : List Char) : ℚ × Option String :=
  let p := toxPreprocess s
  let cats := toxCatScores p
  let base : ℚ := if cats.isEmpty then 0 else (cats.map (fun cs => qMaxList cs.2)).sum / cats.length
  let ctx : ℚ := (toxCtxModifiers.map (fun m => if reSearch m.1 s then m.2 else 0)).sum
  let inten : ℚ :=
    (toxIntensityREs.map (fun m => if reSearch m.1 s then m.2 else 0)).sum +
    (if hasRepeat4 s then 1/20 else 0)
  let lowWords := pySplit (pyLower s)
  let ctx := if lowWords.any (fun w => academicCtx.any (fun a => a.data = w)) then ctx - 1/5 else ctx
  let ctx := if lowWords.any (fun w => fictionalCtx.any (fun a => a.data = w)) then ctx - 3/20 else ctx
  let final : ℚ := qmax 0 (qmin 1 (base + ctx + inten))
  let reason : Option String :=
    if final > 1/2 then
      if !cats.isEmpty then
        match argmaxBy (fun cs => qMaxList cs.2) cats with
        | some top =>
          some ((pyTitle (top.1.data.map (fun c => if c = '_' then ' ' else c))).asString
                ++ " detected")
        | none => none
      else some "Potentially toxic content detected"
    else none
  (final, reason)

/-! ## Prompt-injection validator (`core/validators/prompt_injection.py`,
class `PromptInjectionValidator`).  All patterns are searched over the
lowercased text. -/

/-- One injection technique: name, patterns, risk score, description. -/
structure PiTech where
  name : String
  pats : List RE
  risk : ℚ
  descr : String

/-- Plain lowercase literal word alternation. -/
def wordsL (l : List String) : RE := reAnyOf (l.map (fun w => reLit w.data))

/-- `instructions?` / `commands?` / `prompts?`-style optional plural. -/
def optPlural (w : String) : RE := reCat [reLit w.data, .opt (lit1 's')]

/-- The `injection_techniques` table, in dict insertion order. -/
def piTechs : List PiTech :=
  [⟨"instruction_override",
    [reCat [reLit "ignore".data, sp1, wordsL ["previous", "prior", "all", "above"], sp1,
            reAnyOf [optPlural "instruction", optPlural "command", optPlural "prompt"]],
     reCat [reLit "disregard".data, sp1, wordsL ["previous", "prior", "all", "above"], sp1,
            reAnyOf [optPlural "instruction", optPlural "command", optPlural "prompt"]],
     reCat [reLit "forget".data, sp1, wordsL ["everything", "all", "what"], sp1,
            .opt (wordsL ["i", "you", "we"]), reStar reSpace, wordsL ["said", "told"]],
     reCat [reLit "new".data, sp1, optPlural "instruction", lit1 ':'],
     reCat [reLit "override".data, sp1, optPlural "instruction"]],
    9/10, "Attempting to override system instructions"⟩,
   ⟨"role_play",
    [reCat [reLit "you".data, sp1, reLit "are".data, sp1, reLit "now".data, sp1,
            wordsL ["a", "an", "the", "going"]],
     reCat [reLit "pretend".data, sp1,
            reAnyOf [reCat [reLit "you".data, sp1, reLit "are".data],
                     reLit ['y', 'o', 'u', apos, 'r', 'e'],
                     reCat [reLit "to".data, sp1, reLit "be".data]]],
     reCat [reLit "act".data, sp1, reLit "as".data, sp1,
            reAnyOf [reCat [reLit "if".data, sp1, reLit "you".data, sp1, reLit "are".data],
                     reLit "a".data, reLit "an".data]],
     reCat [reLit "from".data, sp1, reLit "now".data, sp1, reLit "on".data, sp1,
            reLit "you".data, sp1, wordsL ["are", "will", "must"]],
     reCat [.alt (reLit "DAN".data) (reLit "dan".data), reStar reSpace,
            wordsL ["mode", "prompt", "jailbreak"]],
     reCat [reLit "do".data, sp1, reLit "anything".data, sp1, reLit "now".data],
     reCat [reLit "developer".data, sp1, reLit "mode".data]],
    17/20, "Attempting role-play manipulation"⟩,
   ⟨"system_prompt_extraction",
    [reCat [wordsL ["what", "show", "tell", "display", "reveal"], sp1,
            .opt (reCat [reLit "me".data, sp1]), wordsL ["your", "the"], sp1,
            reLit "system".data, sp1, reLit "prompt".data],
     reCat [wordsL ["what", "show", "tell", "display", "reveal"], sp1,
            .opt (reCat [reLit "me".data, sp1]), wordsL ["your", "the"], sp1,
            optPlural "instruction"],
     reCat [reLit "repeat".data, sp1, wordsL ["your", "the"], sp1,
            .opt (reCat [reLit "system".data, sp1]), optPlural "instruction"],
     reCat [reLit "show".data, sp1, reLit "me".data, sp1, reLit "your".data, sp1,
            reLit "source".data, sp1, reLit "code".data],
     reCat [reLit "reveal".data, sp1, reLit "your".data, sp1, reLit "true".data, sp1,
            reLit "purpose".data],
     reCat [reLit "tell".data, sp1, reLit "me".data, sp1, reLit "your".data, sp1,
            reLit "constraints".data]],
    3/4, "Attempting to extract system information"⟩]

/-- `known_jailbreaks` phrase list (substring match on lowered text). -/
def piJailbreaks : List String :=
  ["do anything now", "dan mode", "developer mode enabled", "jailbreak prompt",
   "hypothetical response", "opposite mode"]

/-- `suspicious_tokens` (each compared lowercased against the lowered text;
a set, so only how many are present matters). -/
def piSuspTokens : List String :=
  ["SYSTEM:", "USER:", "ASSISTANT:", "###", "```", "[INST]", "[/INST]"]

/-- `PromptInjectionValidator.validate`, returning the final score and the
`reason` detail. -/
def piValidate (s : List Char) : ℚ × Option String :=
  let low := pyLower s
  let matched := piTechs.filter (fun t => t.pats.any (fun p => reSearch p low))
  let score : ℚ := (matched.map (·.risk)).foldl qmax 0
  let jb := piJailbreaks.any (fun j => containsL low j.data)
  let score := if jb then qmax score (19/20) else score
  let suspCount := (piSuspTokens.filter (fun t => containsL low (pyLower t.data))).length
  let score := if suspCount ≥ 3 then qmax score (7/10) else score
  let reason : Option String :=
    if score > 1/2 then
      if jb then some "Known jailbreak attempt detected"
      else
        let keys := matched.map (·.name) ++ (if suspCount ≥ 3 then ["suspicious_tokens"] else [])
        match argmaxBy (fun n => (((piTechs.find? (fun t => t.name = n)).map (·.risk)).getD 0)) keys with
        | some top =>
          match piTechs.find? (fun t => t.name = top) with
          | some t => some t.descr
          | none => some "Suspicious patterns detected"
        | none => none
    else none
  (score, reason)

/-! ## Orchestrator (`core/safety_guard.py`, class `SafetyGuard`).

`check` is modelled as a function from the guard state to a result and an
updated guard state; a Python exception is an `Except.error` result paired
with the state at the moment of the raise.  The parallel and sequential
branches of `check` have identical observable semantics (futures are created
and then joined in submission order, validators are stateless, and the first
exception encountered in that order propagates), so both are modelled by the
same sequential fold. -/

/-- A Python exception: a validator failure or the `StopIteration` that
`next(iter(cache))` raises on an empty cache. -/
inductive Err where
  | vfail (msg : String)
  | stopIteration
  deriving DecidableEq, Repr

/-- The validator capability: text to `(score, details['reason'])`, or an
exception.  `reason` is the only detail field `check` reads
(`details.get('reason', 'Threshold exceeded')`, where the key is always
present in the three bundled validators). -/
def Validator : Type := List Char → Except Err (ℚ × Option String)

/-- A value of the `results` dict in `check`: a validator entry
`{'score': …, 'details': …}` (reduced to its score and reason) or a custom
rule entry `{'triggered': True}`. -/
inductive ResVal where
  | scored (score : ℚ) (reason : Option String)
  | triggered
  deriving DecidableEq, Repr

/-- `SafetyResult` (latency is modelled as 0). -/
structure SafetyResult where
  is_safe : Bool
  reason : Option String
  scores : Option (List (String × ℚ))
  details : Option (List (String × ResVal))
  latency_ms : ℚ
  deriving DecidableEq, Repr

/-- `SafetyMetrics` (the stored fields; `block_rate` and `avg_latency_ms`
are derived properties). -/
structure SafetyMetrics where
  total_checks : Nat
  blocked_count : Nat
  total_latency_ms : ℚ
  check_counts : List (String × Nat)
  block_counts : List (String × Nat)
  deriving DecidableEq, Repr

/-- A custom rule as stored by `add_custom_rule`: name, compiled pattern,
action string, message.  (The method accepts no priority — passing one is a
`TypeError` — and stores no priority field.) -/
structure Rule where
  name : String
  pattern : RE
  action : String
  message : String

/-- The mutable state of a `SafetyGuard` instance.  Python dicts are
insertion-ordered association lists. -/
structure SafetyGuard where
  thresholds : List (String × ℚ)
  cache_enabled : Bool
  cache : List (String × SafetyResult)
  cache_size : Nat
  metrics_enabled : Bool
  metrics : SafetyMetrics
  validators : List (String × Validator)
  custom_rules : List Rule

/-- Dict lookup in an insertion-ordered association list. -/
def lookupA {α : Type} (k : String) : List (String × α) → Option α
  | [] => none
  | (k', v) :: t => if k' = k then some v else lookupA k t

/-- Dict assignment: overwrite in place, else append. -/
def insertA {α : Type} (k : String) (v : α) : List (String × α) → List (String × α)
  | [] => [(k, v)]
  | (k', v') :: t => if k' = k then (k, v) :: t else (k', v') :: insertA k v t

/-- `d[k] = d.get(k, 0) + 1`. -/
def bump (k : String) (l : List (String × Nat)) : List (String × Nat) :=
  insertA k ((lookupA k l).getD 0 + 1) l

/-- `SafetyGuard.DEFAULT_THRESHOLDS`.  (Note the key is `pii_risk`, not
`pii`.) -/
def defaultThresholds : List (String × ℚ) :=
  [("toxicity", 7/10), ("pii_risk", 9/10), ("prompt_injection", 4/5), ("jailbreak", 17/20)]

/-- `self.thresholds = {**DEFAULT_THRESHOLDS, **(thresholds or {})}`. -/
def mergeThresholds (overrides : List (String × ℚ)) : List (String × ℚ) :=
  overrides.foldl (fun th kv => insertA kv.1 kv.2 th) defaultThresholds

/-- `self.thresholds.get(name, 0.5)`. -/
def thresholdGet (th : List (String × ℚ)) (name : String) : ℚ :=
  (lookupA name th).getD (1/2)

/-- The bundled toxicity validator, wrapped in the `Validator` capability. -/
def toxicityV : Validator := fun t => .ok (toxValidate t)

/-- The bundled PII validator, wrapped in the `Validator` capability. -/
def piiV : Validator := fun t => .ok ((piiValidate t).score, (piiValidate t).reason)

/-- The bundled prompt-injection validator, wrapped in the `Validator`
capability. -/
def promptInjectionV : Validator := fun t => .ok (piValidate t)

/-- `_init_validators` with no name filter: all three bundled validators,
registered under these names in this order. -/
def defaultValidators : List (String × Validator) :=
  [("toxicity", toxicityV), ("pii", piiV), ("prompt_injection", promptInjectionV)]

/-- Ascending insertion for `sorted(checks)`. -/
def insertAsc (x : String) : List String → List String
  | [] => [x]
  | y :: t => if y < x then y :: insertAsc x t else x :: y :: t

/-- `sorted(checks)` (code-point lexicographic, like Python on ASCII). -/
def sortStrings (l : List String) : List String :=
  l.foldl (fun acc x => insertAsc x acc) []

/-- `_get_cache_key`: md5 of `f"{text}:{checks_str}"`, modelled by the hash
pre-image (md5 is treated as collision-free).  `checks_str` is `"all"` when
`checks` is `None` or empty (a Python empty list is falsy), else the sorted
names joined by commas. -/
def cacheKey (text : List Char) (checks : Option (List String)) : String :=
  let checksStr := match checks with
    | none => "all"
    | some [] => "all"
    | some cs => String.intercalate "," (sortStrings cs)
  text.asString ++ ":" ++ checksStr

/-- The validator loop of `check`: run each requested name that is a
configured validator, in request order, collecting `(name, score, reason)`;
the first exception aborts the loop and propagates.  Unknown names are
silently skipped (`if name in self.validators`). -/
def runVals (vals : List (String × Validator)) (toRun : List String) (text : List Char) :
    Except Err (List (String × ℚ × Option String)) :=
  match toRun with
  | [] => .ok []
  | n :: rest =>
    match lookupA n vals with
    | none => runVals vals rest text
    | some v =>
      match v text with
      | .error e => .error e
      | .ok r =>
        match runVals vals rest text with
        | .error e => .error e
        | .ok l => .ok ((n, r) :: l)

/-- The threshold comparison of `check`: a validator whose score exceeds
`thresholds.get(name, 0.5)` flips `is_safe` and appends
`f"{name}: {details.get('reason', 'Threshold exceeded')}"` (the `reason` key
is always present, so a missing reason renders as Python's `None`). -/
def applyThresholds (th : List (String × ℚ)) (rs : List (String × ℚ × Option String)) :
    Bool × List String :=
  rs.foldl
    (fun acc r =>
      if r.2.1 > thresholdGet th r.1 then
        (false, acc.2 ++ [r.1 ++ ": " ++ r.2.2.getD "None"])
      else acc)
    (true, [])

/-- The custom-rule loop of `check`: every rule whose pattern matches adds a
`custom_<name>` results entry; only a rule with action `block` flips
`is_safe` and appends `"Custom rule: <message>"`.  No other action value is
inspected. -/
def applyRules (rules : List Rule) (text : List Char) (acc : Bool × List String) :
    (Bool × List String) × List (String × ResVal) :=
  rules.foldl
    (fun st rule =>
      if reSearch rule.pattern text then
        let st1 := if rule.action = "block"
          then (false, st.1.2 ++ ["Custom rule: " ++ rule.message])
          else st.1
        (st1, st.2 ++ [("custom_" ++ rule.name, ResVal.triggered)])
      else st)
    (acc, [])

/-- `_update_metrics`. -/
def updateMetrics (m : SafetyMetrics) (result : SafetyResult) (toRun : List String) :
    SafetyMetrics :=
  let m := { m with
    total_checks := m.total_checks + 1,
    total_latency_ms := m.total_latency_ms + result.latency_ms }
  let m := if !result.is_safe then { m with blocked_count := m.blocked_count + 1 } else m
  toRun.foldl
    (fun m c =>
      let m := { m with check_counts := bump c m.check_counts }
      if !result.is_safe && containsL (result.reason.getD "").data c.data then
        { m with block_counts := bump c m.block_counts }
      else m)
    m

/-- `_update_cache`: when the cache has reached `cache_size`, delete the
first-inserted key (`next(iter(self.cache))`, a `StopIteration` on an empty
dict) before appending the new entry.  The key is always fresh here, because
`check` only updates the cache after a miss. -/
def updateCache (size : Nat) (cache : List (String × SafetyResult)) (k : String)
    (r : SafetyResult) : Except Err (List (String × SafetyResult)) :=
  if cache.length ≥ size then
    match cache with
    | [] => .error .stopIteration
    | _ :: t => .ok (t ++ [(k, r)])
  else .ok (cache ++ [(k, r)])

/-- `validators_to_run = checks or list(self.validators.keys())` — an empty
list is falsy in Python, so both `None` and `[]` select every configured
validator. -/
def toRunOf (g : SafetyGuard) (checks : Option (List String)) : List String :=
  match checks with
  | none => g.validators.map (·.1)
  | some [] => g.validators.map (·.1)
  | some cs => cs

/-- The `SafetyResult` assembled by `check` from the validator outcomes and
the custom-rule pass. -/
def assemble (g : SafetyGuard) (text : List Char) (returnDetails : Bool)
    (rs : List (String × ℚ × Option String)) : SafetyResult :=
  let st := applyThresholds g.thresholds rs
  let str := applyRules g.custom_rules text st
  { is_safe := str.1.1,
    reason := if str.1.2.isEmpty then none else some (String.intercalate "; " str.1.2),
    scores := if returnDetails then some (rs.map (fun r => (r.1, r.2.1))) else none,
    details := if returnDetails
               then some (rs.map (fun r => (r.1, ResVal.scored r.2.1 r.2.2)) ++ str.2)
               else none,
    latency_ms := 0 }

/-- The tail of a successful `check`: update metrics (when enabled), then
write the cache entry (when enabled; a `StopIteration` from the eviction
propagates after the metrics update, exactly as in the source). -/
def commit (g : SafetyGuard) (toRun : List String) (key : String) (result : SafetyResult) :
    Except Err SafetyResult × SafetyGuard :=
  let g1 := if g.metrics_enabled
            then { g with metrics := updateMetrics g.metrics result toRun }
            else g
  if g.cache_enabled then
    match updateCache g.cache_size g1.cache key result with
    | .error e => (.error e, g1)
    | .ok c => (.ok result, { g1 with cache := c })
  else (.ok result, g1)

/-- `SafetyGuard.check` on a cache miss: run the selected validators (the
first exception propagates with the guard state untouched), assemble the
verdict, and commit metrics and cache. -/
def SafetyGuard.checkMiss (g : SafetyGuard) (text : List Char) (checks : Option (List String))
    (returnDetails : Bool) : Except Err SafetyResult × SafetyGuard :=
  match runVals g.validators (toRunOf g checks) text with
  | .error e => (.error e, g)
  | .ok rs => commit g (toRunOf g checks) (cacheKey text checks) (assemble g text returnDetails rs)

/-- `SafetyGuard.check(text, checks, return_details)`: on a cache hit return
the cached result unchanged (no re-scoring, no metrics update), otherwise
evaluate. -/
def SafetyGuard.check (g : SafetyGuard) (text : List Char) (checks : Option (List String))
    (returnDetails : Bool) : Except Err SafetyResult × SafetyGuard :=
  match (if g.cache_enabled then lookupA (cacheKey text checks) g.cache else none) with
  | some r => (.ok r, g)
  | none => g.checkMiss text checks returnDetails

/-- `SafetyGuard.redact_pii`: both branches (a registered `pii` validator or
a freshly constructed `PIIValidator`) run the same stateless `redact`. -/
def SafetyGuard.redactPii (_ : SafetyGuard) (text : List Char) : List Char :=
  piiRedact text

/-- `SafetyGuard.add_custom_rule(name, pattern, action="block",
message="Custom rule triggered")`: compile the pattern (case-insensitively
for string patterns) and append the rule. -/
def SafetyGuard.addCustomRule (g : SafetyGuard) (name : String) (pattern : RE)
    (action : String := "block") (message : String := "Custom rule triggered") : SafetyGuard :=
  { g with custom_rules := g.custom_rules ++ [⟨name, pattern, action, message⟩] }

/-- Fresh metrics (`SafetyMetrics(check_counts={}, block_counts={})`). -/
def emptyMetrics : SafetyMetrics := ⟨0, 0, 0, [], []⟩

/-- A `SafetyGuard()` constructed with all defaults: default thresholds,
cache enabled with capacity 10000, metrics enabled, all three validators,
no custom rules. -/
def defaultGuard : SafetyGuard :=
  { thresholds := defaultThresholds,
    cache_enabled := true,
    cache := [],
    cache_size := 10000,
    metrics_enabled := true,
    metrics := emptyMetrics,
    validators := defaultValidators,
    custom_rules := [] }

/-! ## Supporting lemmas -/

/-- The accumulation loop of `PIIValidator.validate`, characterised: the
contributing entries are appended in table order and the risk accumulator is
the running maximum of their risk scores. -/
theorem piiStep_foldl (s : List Char) (l : List PiiEntry) :
    ∀ acc : List (String × Nat) × ℚ,
      l.foldl (piiStep s) acc =
        (acc.1 ++ (l.filter (fun e => entryContributes e s)).map
            (fun e => (e.name, (entryValidMatches e s).length)),
         ((l.filter (fun e => entryContributes e s)).map (fun e => e.risk)).foldl qmax acc.2) := by
  induction l with
  | nil => intro acc; simp
  | cons e t ih =>
    intro acc
    cases h : entryContributes e s <;> simp [piiStep, h, ih]

/-- `pii_counts` of `validate`: the contributing entries with their
surviving-match counts, plus the `potential_names` pseudo-type when the name
heuristic fires. -/
theorem piiValidate_counts (s : List Char) :
    (piiValidate s).counts =
      (piiAllPatterns.filter (fun e => entryContributes e s)).map
        (fun e => (e.name, (entryValidMatches e s).length)) ++
      (if detectNames s > 1/2 then [("potential_names", 1)] else []) := by
  unfold piiValidate
  rw [piiStep_foldl]
  split_ifs <;> simp

/-- Membership in `pii_counts` for a genuine pattern type is exactly
contribution of some entry of that name. -/
theorem piiCounts_mem (s : List Char) (nm : String) (h : nm ≠ "potential_names") :
    nm ∈ (piiValidate s).counts.map Prod.fst ↔
      ∃ e ∈ piiAllPatterns, entryContributes e s = true ∧ e.name = nm := by
  rw [piiValidate_counts, List.map_append, List.mem_append]
  constructor
  · rintro (h1 | h2)
    · rw [List.map_map] at h1
      obtain ⟨e, he, hn⟩ := List.mem_map.mp h1
      obtain ⟨hmem, hc⟩ := List.mem_filter.mp he
      exact ⟨e, hmem, hc, hn⟩
    · have : nm = "potential_names" := by
        revert h2
        split
        · intro h2
          simpa using h2
        · intro h2
          simp at h2
      exact absurd this h
  · rintro ⟨e, he, hc, rfl⟩
    left
    rw [List.map_map]
    exact List.mem_map.mpr ⟨e, List.mem_filter.mpr ⟨he, hc⟩, rfl⟩

/-- For an entry whose name no other entry shares, membership of that name in
`pii_counts` is exactly the entry's own contribution. -/
theorem piiCounts_mem_name (s : List Char) (e0 : PiiEntry) (hm : e0 ∈ piiAllPatterns)
    (hn : e0.name ≠ "potential_names")
    (hu : ∀ e ∈ piiAllPatterns, e.name = e0.name → entryContributes e s = true →
          entryContributes e0 s = true) :
    e0.name ∈ (piiValidate s).counts.map Prod.fst ↔ entryContributes e0 s = true := by
  rw [piiCounts_mem s e0.name hn]
  constructor
  · rintro ⟨e, he, hc, hname⟩
    exact hu e he hname hc
  · intro hc
    exact ⟨e0, hm, hc, rfl⟩

/-- `filterMap` of a constantly-`none` function is empty. -/
theorem filterMap_none_eq_nil {α β : Type} :
    ∀ l : List α, (l.filterMap fun _ => (none : Option β)) = []
  | [] => rfl
  | _ :: t => by simp [List.filterMap_cons, filterMap_none_eq_nil t]

/-- `filterMap` of an always-`some` function is a `map`. -/
theorem filterMap_some_eq_map {α β : Type} (g : α → β) :
    ∀ l : List α, (l.filterMap fun a => some (g a)) = l.map g
  | [] => rfl
  | a :: t => by simp [List.filterMap_cons, filterMap_some_eq_map g t]

/-- Every label among one entry's collected replacements is that entry's own
`redact_label`. -/
theorem entryReplacements_label_eq (s : List Char) (e : PiiEntry) (lbl : String)
    (h : lbl ∈ (entryReplacements s e).map Prod.snd) : lbl = e.label := by
  obtain ⟨r, hr, hrl⟩ := List.mem_map.mp h
  obtain ⟨m, _, hmr⟩ := List.mem_filterMap.mp hr
  subst hrl
  split at hmr
  · cases hmr
  · split at hmr
    · cases hmr
    · injection hmr with h'
      rw [← h']

/-- For an entry without a checksum validator, its label shows up among its
collected replacements exactly when its context gate passes and its regex has
a match — the same gate `validate` applies. -/
theorem entryReplacements_label_mem (s : List Char) (e : PiiEntry)
    (hluhn : e.useLuhn = false) :
    e.label ∈ (entryReplacements s e).map Prod.snd ↔
      (piiCtxOk e s = true ∧ findIter e.pat s ≠ []) := by
  unfold entryReplacements
  rcases Bool.eq_false_or_eq_true (piiCtxOk e s) with hctx | hctx
  · rw [show (fun m : Nat × Nat × List Char =>
        if !piiCtxOk e s then none
        else if e.useLuhn && !luhnValid m.2.2 then none
        else some ((m.1, m.1 + m.2.1), e.label)) =
        fun m => some ((m.1, m.1 + m.2.1), e.label)
      from funext fun m => by rw [hctx, hluhn]; rfl]
    rw [filterMap_some_eq_map, List.map_map]
    constructor
    · intro h
      obtain ⟨m, hm, _⟩ := List.mem_map.mp h
      exact ⟨hctx, List.ne_nil_of_mem hm⟩
    · rintro ⟨_, hne⟩
      obtain ⟨m, hm⟩ := List.exists_mem_of_ne_nil _ hne
      exact List.mem_map.mpr ⟨m, hm, rfl⟩
  · rw [show (fun m : Nat × Nat × List Char =>
        if !piiCtxOk e s then none
        else if e.useLuhn && !luhnValid m.2.2 then none
        else some ((m.1, m.1 + m.2.1), e.label)) = fun _ => (none : Option ((Nat × Nat) × String))
      from funext fun m => by rw [hctx]; rfl]
    rw [filterMap_none_eq_nil]
    simp [hctx]

/-- For an entry whose label no other entry shares, membership of that label
among `redact`'s collected replacements is exactly membership among the
entry's own replacements. -/
theorem piiReplacements_label_iff (s : List Char) (e0 : PiiEntry) (hm : e0 ∈ piiAllPatterns)
    (hu : ∀ e ∈ piiAllPatterns, e.label = e0.label →
          e0.label ∈ (entryReplacements s e).map Prod.snd →
          e0.label ∈ (entryReplacements s e0).map Prod.snd) :
    (e0.label ∈ (piiReplacements s).map Prod.snd ↔
      e0.label ∈ (entryReplacements s e0).map Prod.snd) := by
  unfold piiReplacements
  constructor
  · intro h
    obtain ⟨r, hr, hrl⟩ := List.mem_map.mp h
    obtain ⟨e, he, hre⟩ := List.mem_flatMap.mp hr
    have hlbl : e0.label ∈ (entryReplacements s e).map Prod.snd :=
      List.mem_map.mpr ⟨r, hre, hrl⟩
    exact hu e he (entryReplacements_label_eq s e e0.label hlbl).symm hlbl
  · intro h
    obtain ⟨r, hr, hrl⟩ := List.mem_map.mp h
    exact List.mem_map.mpr ⟨r, List.mem_flatMap.mpr ⟨e0, hm, hr⟩, hrl⟩

/-- No lowercased text contains an uppercase character, so the context word
`DL` can never be found in `text.lower()`. -/
theorem ofNat_shift_ne_D (n : Nat) (h1 : 65 ≤ n) (h2 : n ≤ 90) :
    Char.ofNat (n + 32) ≠ 'D' := by
  interval_cases n <;> decide

/-- ASCII lowering never produces the letter `D`. -/
theorem pyLowerChar_ne_D (c : Char) : pyLowerChar c ≠ 'D' := by
  unfold pyLowerChar
  split
  · rename_i h
    unfold isUpperA at h
    simp only [Bool.and_eq_true, decide_eq_true_eq] at h
    exact ofNat_shift_ne_D c.toNat (Char.le_def.mp h.1) (Char.le_def.mp h.2)
  · rename_i h
    intro hc
    subst hc
    exact h (by decide)

/-- A list without `D` does not contain the substring `DL`. -/
theorem containsL_no_D : ∀ l : List Char, (∀ c ∈ l, c ≠ 'D') → containsL l ['D', 'L'] = false
  | [], _ => rfl
  | c :: t, h => by
    have hc : c ≠ 'D' := h c (List.mem_cons_self c t)
    have hs : listStartsWith ['D', 'L'] (c :: t) = false := by
      unfold listStartsWith
      simp
      exact fun hh => absurd hh.symm hc
    unfold containsL
    rw [hs]
    simpa using containsL_no_D t (fun c' h' => h c' (List.mem_cons_of_mem _ h'))

/-- The substring `DL` never occurs in a lowercased text. -/
theorem pyLower_no_DL (s : List Char) : containsL (pyLower s) ['D', 'L'] = false := by
  apply containsL_no_D
  intro c hc
  unfold pyLower at hc
  obtain ⟨c', _, rfl⟩ := List.mem_map.mp hc
  exact pyLowerChar_ne_D c'

/-! ## Claims -/

/-- C3 (counterexample): on `"My name is John Smith"` no pattern entry
contributes at all, yet `validate` returns risk 0.6 (from the name
heuristic), so the returned score is not the maximum of the contributing
entries' fixed risk scores (which here is the empty maximum, 0). -/
theorem piiScoreNotEntryMax_cex :
    (piiAllPatterns.all fun e => !entryContributes e "My name is John Smith".data) = true ∧
    (piiValidate "My name is John Smith".data).score = 3/5 ∧
    (piiValidate "My name is John Smith".data).score ≠
      ((piiAllPatterns.filter
          (fun e => entryContributes e "My name is John Smith".data)).map
        (fun e => e.risk)).foldl qmax 0 :=
  ⟨by decide, by decide, by decide⟩

/-- C3 (amended): the aggregate risk of `PIIValidator.validate` is the
maximum of the contributing entries' fixed risk scores, raised to at least
0.6 when the name heuristic exceeds 0.5 (the heuristic then counting as an
additional PII type), and multiplied by 1.2 and clamped to 1.0 when two or
more distinct PII types (the name pseudo-type included) contribute — never a
sum. -/
theorem piiScoreIsEntryMax (s : List Char) :
    (piiValidate s).score =
      (let base : ℚ := ((piiAllPatterns.filter (fun e => entryContributes e s)).map
          (fun e => e.risk)).foldl qmax 0
       let raised : ℚ := if detectNames s > 1/2 then qmax base (3/5) else base
       let ntypes : Nat := (piiAllPatterns.filter (fun e => entryContributes e s)).length +
         (if detectNames s > 1/2 then 1 else 0)
       if 1 < ntypes then qmin 1 (raised * (6/5)) else raised) := by
  unfold piiValidate
  rw [piiStep_foldl]
  split_ifs <;> simp_all

/-- C4: Luhn gating of credit-card classification.  In general, the
`credit_card` type appears in `validate`'s findings exactly when some regex
match passes the Luhn checksum; concretely, `4532-1234-5678-9999` fails the
checksum, is not flagged, and is left unchanged by `redact`, while the
Luhn-valid `4532-1234-5678-9014` is flagged and redacted. -/
theorem luhnGating :
    (∀ s : List Char,
      "credit_card" ∈ (piiValidate s).counts.map Prod.fst ↔
        ((findIter ccRE s).filter fun m => luhnValid m.2.2) ≠ []) ∧
    luhnValid "4532-1234-5678-9999".data = false ∧
    (piiValidate "4532-1234-5678-9999".data).counts = [] ∧
    piiRedact "4532-1234-5678-9999".data = "4532-1234-5678-9999".data ∧
    luhnValid "4532-1234-5678-9014".data = true ∧
    (piiValidate "4532-1234-5678-9014".data).counts = [("credit_card", 1)] ∧
    piiRedact "4532-1234-5678-9014".data = "[CREDIT_CARD]".data := by
  refine ⟨fun s => ?_, by decide, by decide, by decide, by decide, by decide, by decide⟩
  have hcc : entryContributes ccEntry s =
      (true && !((findIter ccRE s).filter fun m => luhnValid m.2.2).isEmpty) := rfl
  rw [piiCounts_mem s "credit_card" (by decide)]
  constructor
  · rintro ⟨e, he, hc, hn⟩
    fin_cases he <;>
      first
      | exact absurd hn (by decide)
      | · intro hEq
          rw [hcc, hEq] at hc
          simp at hc
  · intro hne
    refine ⟨ccEntry, by simp [piiAllPatterns], ?_, rfl⟩
    rw [hcc]
    simpa using hne

/-- C5 (counterexample): in `"DL: AB123456"` the context word `DL` appears
case-insensitively and the `driver_license` regex matches `AB123456`, yet
`validate` reports no `driver_license` finding, because the gate compares the
table's uppercase `DL` against the lowercased text. -/
theorem contextGateDL_cex :
    containsL (pyLower "DL: AB123456".data) (pyLower "DL".data) = true ∧
    findIter dlRE "DL: AB123456".data ≠ [] ∧
    "driver_license" ∉ (piiValidate "DL: AB123456".data).counts.map Prod.fst :=
  ⟨by decide, by decide, by decide⟩

/-- Formalisation of the claim's wording "the context substring appears
case-insensitively anywhere in the text": the word occurs in the text when
both are lowercased. -/
def appearsCI (s w : List Char) : Bool := containsL (pyLower s) (pyLower w)

/-- C5 (amended): the context gate of `validate` and `redact` compares each
`context_required` substring exactly as written in the table against the
lowercased text.  The lowercase context words of `driver_license`,
`bank_account`, `zipcode` and `routing_number` therefore act
case-insensitively, but the table's uppercase `DL` never matches any
lowercased text, so the `driver_license` entry is enabled only by `license`
or `driver`: for each of the four context-gated entries, the entry
contributes findings to `validate` and replacement spans to `redact` exactly
when its regex matches and one of its effective context words appears
case-insensitively. -/
theorem contextGateLowercasedTextOnly (s : List Char) :
    containsL (pyLower s) "DL".data = false ∧
    (("driver_license" ∈ (piiValidate s).counts.map Prod.fst ↔
       (findIter dlRE s ≠ [] ∧
         (appearsCI s "license".data = true ∨ appearsCI s "driver".data = true))) ∧
     ("[DRIVER_LICENSE]" ∈ (piiReplacements s).map Prod.snd ↔
       (findIter dlRE s ≠ [] ∧
         (appearsCI s "license".data = true ∨ appearsCI s "driver".data = true)))) ∧
    (("bank_account" ∈ (piiValidate s).counts.map Prod.fst ↔
       (findIter bankRE s ≠ [] ∧
         (appearsCI s "account".data = true ∨ appearsCI s "bank".data = true ∨
          appearsCI s "routing".data = true))) ∧
     ("[BANK_ACCOUNT]" ∈ (piiReplacements s).map Prod.snd ↔
       (findIter bankRE s ≠ [] ∧
         (appearsCI s "account".data = true ∨ appearsCI s "bank".data = true ∨
          appearsCI s "routing".data = true)))) ∧
    (("zipcode" ∈ (piiValidate s).counts.map Prod.fst ↔
       (findIter zipRE s ≠ [] ∧
         (appearsCI s "zip".data = true ∨ appearsCI s "postal".data = true ∨
          appearsCI s "code".data = true))) ∧
     ("[ZIPCODE]" ∈ (piiReplacements s).map Prod.snd ↔
       (findIter zipRE s ≠ [] ∧
         (appearsCI s "zip".data = true ∨ appearsCI s "postal".data = true ∨
          appearsCI s "code".data = true)))) ∧
    (("routing_number" ∈ (piiValidate s).counts.map Prod.fst ↔
       (findIter routingRE s ≠ [] ∧
         (appearsCI s "routing".data = true ∨ appearsCI s "aba".data = true ∨
          appearsCI s "rtn".data = true))) ∧
     ("[ROUTING_NUMBER]" ∈ (piiReplacements s).map Prod.snd ↔
       (findIter routingRE s ≠ [] ∧
         (appearsCI s "routing".data = true ∨ appearsCI s "aba".data = true ∨
          appearsCI s "rtn".data = true)))) := by
  have hDL : containsL (pyLower s) "DL".data = false := pyLower_no_DL s
  refine ⟨hDL, ⟨?_, ?_⟩, ⟨?_, ?_⟩, ⟨?_, ?_⟩, ⟨?_, ?_⟩⟩
  · -- driver_license in validate
    have hu : ∀ e ∈ piiAllPatterns, e.name = dlEntry.name → entryContributes e s = true →
        entryContributes dlEntry s = true := by
      intro e he hname hc
      fin_cases he <;> first | exact absurd hname (by decide) | exact hc
    have hv : ("driver_license" ∈ (piiValidate s).counts.map Prod.fst ↔
        entryContributes dlEntry s = true) :=
      piiCounts_mem_name s dlEntry (by simp [piiAllPatterns]) (by decide) hu
    have hg : entryContributes dlEntry s =
        ((containsL (pyLower s) "license".data ||
          (containsL (pyLower s) "DL".data ||
           (containsL (pyLower s) "driver".data || false))) && !(findIter dlRE s).isEmpty) := rfl
    rw [hv, hg, hDL]
    simp only [Bool.false_or, Bool.or_false, Bool.and_eq_true, Bool.or_eq_true,
      Bool.not_eq_true', List.isEmpty_eq_false]
    exact ⟨fun h => ⟨h.2, h.1⟩, fun h => ⟨h.2, h.1⟩⟩
  · -- driver_license in redact
    have hu : ∀ e ∈ piiAllPatterns, e.label = dlEntry.label →
        dlEntry.label ∈ (entryReplacements s e).map Prod.snd →
        dlEntry.label ∈ (entryReplacements s dlEntry).map Prod.snd := by
      intro e he hlbl hmem
      fin_cases he <;> first | exact absurd hlbl (by decide) | exact hmem
    have hr : ("[DRIVER_LICENSE]" ∈ (piiReplacements s).map Prod.snd ↔
        "[DRIVER_LICENSE]" ∈ (entryReplacements s dlEntry).map Prod.snd) :=
      piiReplacements_label_iff s dlEntry (by simp [piiAllPatterns]) hu
    have hm : ("[DRIVER_LICENSE]" ∈ (entryReplacements s dlEntry).map Prod.snd ↔
        (piiCtxOk dlEntry s = true ∧ findIter dlRE s ≠ [])) :=
      entryReplacements_label_mem s dlEntry rfl
    have hg : piiCtxOk dlEntry s =
        (containsL (pyLower s) "license".data ||
         (containsL (pyLower s) "DL".data ||
          (containsL (pyLower s) "driver".data || false))) := rfl
    rw [hr, hm, hg, hDL]
    simp only [Bool.false_or, Bool.or_false, Bool.or_eq_true]
    exact ⟨fun h => ⟨h.2, h.1⟩, fun h => ⟨h.2, h.1⟩⟩
  · -- bank_account in validate
    have hu : ∀ e ∈ piiAllPatterns, e.name = bankEntry.name → entryContributes e s = true →
        entryContributes bankEntry s = true := by
      intro e he hname hc
      fin_cases he <;> first | exact absurd hname (by decide) | exact hc
    have hv : ("bank_account" ∈ (piiValidate s).counts.map Prod.fst ↔
        entryContributes bankEntry s = true) :=
      piiCounts_mem_name s bankEntry (by simp [piiAllPatterns]) (by decide) hu
    have hg : entryContributes bankEntry s =
        ((containsL (pyLower s) "account".data ||
          (containsL (pyLower s) "bank".data ||
           (containsL (pyLower s) "routing".data || false))) && !(findIter bankRE s).isEmpty) := rfl
    rw [hv, hg]
    simp only [Bool.or_false, Bool.and_eq_true, Bool.or_eq_true,
      Bool.not_eq_true', List.isEmpty_eq_false]
    exact ⟨fun h => ⟨h.2, h.1⟩, fun h => ⟨h.2, h.1⟩⟩
  · -- bank_account in redact
    have hu : ∀ e ∈ piiAllPatterns, e.label = bankEntry.label →
        bankEntry.label ∈ (entryReplacements s e).map Prod.snd →
        bankEntry.label ∈ (entryReplacements s bankEntry).map Prod.snd := by
      intro e he hlbl hmem
      fin_cases he <;> first | exact absurd hlbl (by decide) | exact hmem
    have hr : ("[BANK_ACCOUNT]" ∈ (piiReplacements s).map Prod.snd ↔
        "[BANK_ACCOUNT]" ∈ (entryReplacements s bankEntry).map Prod.snd) :=
      piiReplacements_label_iff s bankEntry (by simp [piiAllPatterns]) hu
    have hm : ("[BANK_ACCOUNT]" ∈ (entryReplacements s bankEntry).map Prod.snd ↔
        (piiCtxOk bankEntry s = true ∧ findIter bankRE s ≠ [])) :=
      entryReplacements_label_mem s bankEntry rfl
    have hg : piiCtxOk bankEntry s =
        (containsL (pyLower s) "account".data ||
         (containsL (pyLower s) "bank".data ||
          (containsL (pyLower s) "routing".data || false))) := rfl
    rw [hr, hm, hg]
    simp only [Bool.or_false, Bool.or_eq_true]
    exact ⟨fun h => ⟨h.2, h.1⟩, fun h => ⟨h.2, h.1⟩⟩
  · -- zipcode in validate
    have hu : ∀ e ∈ piiAllPatterns, e.name = zipEntry.name → entryContributes e s = true →
        entryContributes zipEntry s = true := by
      intro e he hname hc
      fin_cases he <;> first | exact absurd hname (by decide) | exact hc
    have hv : ("zipcode" ∈ (piiValidate s).counts.map Prod.fst ↔
        entryContributes zipEntry s = true) :=
      piiCounts_mem_name s zipEntry (by simp [piiAllPatterns]) (by decide) hu
    have hg : entryContributes zipEntry s =
        ((containsL (pyLower s) "zip".data ||
          (containsL (pyLower s) "postal".data ||
           (containsL (pyLower s) "code".data || false))) && !(findIter zipRE s).isEmpty) := rfl
    rw [hv, hg]
    simp only [Bool.or_false, Bool.and_eq_true, Bool.or_eq_true,
      Bool.not_eq_true', List.isEmpty_eq_false]
    exact ⟨fun h => ⟨h.2, h.1⟩, fun h => ⟨h.2, h.1⟩⟩
  · -- zipcode in redact
    have hu : ∀ e ∈ piiAllPatterns, e.label = zipEntry.label →
        zipEntry.label ∈ (entryReplacements s e).map Prod.snd →
        zipEntry.label ∈ (entryReplacements s zipEntry).map Prod.snd := by
      intro e he hlbl hmem
      fin_cases he <;> first | exact absurd hlbl (by decide) | exact hmem
    have hr : ("[ZIPCODE]" ∈ (piiReplacements s).map Prod.snd ↔
        "[ZIPCODE]" ∈ (entryReplacements s zipEntry).map Prod.snd) :=
      piiReplacements_label_iff s zipEntry (by simp [piiAllPatterns]) hu
    have hm : ("[ZIPCODE]" ∈ (entryReplacements s zipEntry).map Prod.snd ↔
        (piiCtxOk zipEntry s = true ∧ findIter zipRE s ≠ [])) :=
      entryReplacements_label_mem s zipEntry rfl
    have hg : piiCtxOk zipEntry s =
        (containsL (pyLower s) "zip".data ||
         (containsL (pyLower s) "postal".data ||
          (containsL (pyLower s) "code".data || false))) := rfl
    rw [hr, hm, hg]
    simp only [Bool.or_false, Bool.or_eq_true]
    exact ⟨fun h => ⟨h.2, h.1⟩, fun h => ⟨h.2, h.1⟩⟩
  · -- routing_number in validate
    have hu : ∀ e ∈ piiAllPatterns, e.name = routingEntry.name → entryContributes e s = true →
        entryContributes routingEntry s = true := by
      intro e he hname hc
      fin_cases he <;> first | exact absurd hname (by decide) | exact hc
    have hv : ("routing_number" ∈ (piiValidate s).counts.map Prod.fst ↔
        entryContributes routingEntry s = true) :=
      piiCounts_mem_name s routingEntry (by simp [piiAllPatterns]) (by decide) hu
    have hg : entryContributes routingEntry s =
        ((containsL (pyLower s) "routing".data ||
          (containsL (pyLower s) "aba".data ||
           (containsL (pyLower s) "rtn".data || false))) && !(findIter routingRE s).isEmpty) := rfl
    rw [hv, hg]
    simp only [Bool.or_false, Bool.and_eq_true, Bool.or_eq_true,
      Bool.not_eq_true', List.isEmpty_eq_false]
    exact ⟨fun h => ⟨h.2, h.1⟩, fun h => ⟨h.2, h.1⟩⟩
  · -- routing_number in redact
    have hu : ∀ e ∈ piiAllPatterns, e.label = routingEntry.label →
        routingEntry.label ∈ (entryReplacements s e).map Prod.snd →
        routingEntry.label ∈ (entryReplacements s routingEntry).map Prod.snd := by
      intro e he hlbl hmem
      fin_cases he <;> first | exact absurd hlbl (by decide) | exact hmem
    have hr : ("[ROUTING_NUMBER]" ∈ (piiReplacements s).map Prod.snd ↔
        "[ROUTING_NUMBER]" ∈ (entryReplacements s routingEntry).map Prod.snd) :=
      piiReplacements_label_iff s routingEntry (by simp [piiAllPatterns]) hu
    have hm : ("[ROUTING_NUMBER]" ∈ (entryReplacements s routingEntry).map Prod.snd ↔
        (piiCtxOk routingEntry s = true ∧ findIter routingRE s ≠ [])) :=
      entryReplacements_label_mem s routingEntry rfl
    have hg : piiCtxOk routingEntry s =
        (containsL (pyLower s) "routing".data ||
         (containsL (pyLower s) "aba".data ||
          (containsL (pyLower s) "rtn".data || false))) := rfl
    rw [hr, hm, hg]
    simp only [Bool.or_false, Bool.or_eq_true]
    exact ⟨fun h => ⟨h.2, h.1⟩, fun h => ⟨h.2, h.1⟩⟩

/-- C6: when no pattern entry yields a surviving replacement and the name
heuristic does not exceed 0.5, `redact` is the identity — in particular
redacting an already-redacted text with no remaining PII is the identity. -/
theorem redactIdentityNoMatches (s : List Char) (h1 : piiReplacements s = [])
    (h2 : ¬ detectNames s > 1/2) : piiRedact s = s := by
  unfold piiRedact
  rw [h1, if_neg h2]
  rfl

/-- C6 witness: redacting the already-redacted `"My SSN is [SSN]"` (which has
no surviving matches and no name signal) returns it unchanged. -/
theorem redactIdentityNoMatches_witness :
    piiReplacements "My SSN is [SSN]".data = [] ∧
    ¬ detectNames "My SSN is [SSN]".data > 1/2 ∧
    piiRedact "My SSN is [SSN]".data = "My SSN is [SSN]".data :=
  ⟨by decide, by decide, redactIdentityNoMatches _ (by decide) (by decide)⟩

/-- Rule A of the rule-precedence scenario: `\btest\b`, compiled with
`re.IGNORECASE`, action `block`. -/
def ruleTestRE : RE := reCat [.wb, reLitCI "test".data, .wb]

/-- Rule B of the rule-precedence scenario: `\btest case\b`, compiled with
`re.IGNORECASE`, action `allow`. -/
def ruleTestCaseRE : RE := reCat [.wb, reLitCI "test case".data, .wb]

/-- The guard of the rule-precedence scenario.  `add_custom_rule` accepts no
priority argument (the demo's `priority=` keyword is a `TypeError`), so the
rules carry only name, pattern, action and message. -/
def priorityScenarioGuard : SafetyGuard :=
  (defaultGuard.addCustomRule "general_block" ruleTestRE "block"
      "General test block").addCustomRule
    "specific_allow" ruleTestCaseRE "allow" "Specific test case allowed"

/-- C1: the custom-rule loop honours no priorities and ignores the `allow`
action entirely (only `action == 'block'` is inspected), so with rule A
`\btest\b`/block and rule B `\btest case\b`/allow, `"This is a test case"` is
blocked — the allow rule triggers (its `custom_specific_allow` entry is
recorded) but does not override the block.  `"This is a test"` is blocked as
the scenario expects. -/
theorem customRuleAllowIgnored :
    (priorityScenarioGuard.check "This is a test case".data none false).1 =
      .ok ⟨false, some "Custom rule: General test block", none, none, 0⟩ ∧
    (priorityScenarioGuard.check "This is a test".data none false).1 =
      .ok ⟨false, some "Custom rule: General test block", none, none, 0⟩ ∧
    (priorityScenarioGuard.check "This is a test case".data none true).1 =
      .ok ⟨false, some "Custom rule: General test block",
           some [("toxicity", 0), ("pii", 0), ("prompt_injection", 0)],
           some [("toxicity", .scored 0 none), ("pii", .scored 0 none),
                 ("prompt_injection", .scored 0 none),
                 ("custom_general_block", .triggered), ("custom_specific_allow", .triggered)],
           0⟩ :=
  ⟨by decide, by decide, by decide⟩

/-- C2: the end-to-end SSN scenario.  Under default thresholds
`"My SSN is 123-45-6789"` is unsafe with the PII reason, and redaction
replaces the SSN with `[SSN]`, leaving no trace of the raw digits. -/
theorem ssnEndToEnd :
    (defaultGuard.check "My SSN is 123-45-6789".data none false).1 =
      .ok ⟨false, some "pii: Ssn detected", none, none, 0⟩ ∧
    defaultGuard.redactPii "My SSN is 123-45-6789".data = "My SSN is [SSN]".data ∧
    containsL "My SSN is [SSN]".data "123-45-6789".data = false :=
  ⟨by decide, by decide, by decide⟩

/-- Unfolding equation of `runVals` on a nonempty request list. -/
theorem runVals_cons (vals : List (String × Validator)) (n0 : String) (rest : List String)
    (text : List Char) :
    runVals vals (n0 :: rest) text =
      match lookupA n0 vals with
      | none => runVals vals rest text
      | some v =>
        match v text with
        | .error e => .error e
        | .ok r =>
          match runVals vals rest text with
          | .error e => .error e
          | .ok l => .ok ((n0, r) :: l) := rfl

/-- A validator loop containing a failing validator fails with some error. -/
theorem runVals_error_of_mem (vals : List (String × Validator)) (text : List Char) :
    ∀ toRun : List String,
      (∃ n ∈ toRun, ∃ v, lookupA n vals = some v ∧ ∃ e, v text = .error e) →
      ∃ e', runVals vals toRun text = .error e' := by
  intro toRun
  induction toRun with
  | nil =>
    rintro ⟨n, hn, _⟩
    simp at hn
  | cons n0 rest ih =>
    rintro ⟨n, hn, v, hv, e, he⟩
    cases hl : lookupA n0 vals with
    | none =>
      have hn' : n ∈ rest := by
        rcases List.mem_cons.mp hn with rfl | hmem
        · rw [hl] at hv; cases hv
        · exact hmem
      obtain ⟨e', he'⟩ := ih ⟨n, hn', v, hv, e, he⟩
      exact ⟨e', by simp only [runVals_cons, hl, he']⟩
    | some v0 =>
      cases hr : v0 text with
      | error e0 => exact ⟨e0, by simp only [runVals_cons, hl, hr]⟩
      | ok r0 =>
        have hn' : n ∈ rest := by
          rcases List.mem_cons.mp hn with rfl | hmem
          · rw [hl] at hv
            injection hv with hv'
            subst hv'
            rw [hr] at he
            cases he
          · exact hmem
        obtain ⟨e', he'⟩ := ih ⟨n, hn', v, hv, e, he⟩
        exact ⟨e', by simp only [runVals_cons, hl, hr, he']⟩

/-- C7: error atomicity of `check`.  On a cache miss, if any active validator
raises, `check` propagates an error to the caller — it never returns a
verdict — and the guard state (cache and all metrics fields) is returned
exactly as it was before the call. -/
theorem checkErrorAtomic (g : SafetyGuard) (text : List Char) (checks : Option (List String))
    (rd : Bool)
    (hmiss : g.cache_enabled = false ∨ lookupA (cacheKey text checks) g.cache = none)
    (herr : ∃ n ∈ toRunOf g checks, ∃ v, lookupA n g.validators = some v ∧
            ∃ e, v text = .error e) :
    ∃ e', g.check text checks rd = (.error e', g) := by
  obtain ⟨e', he'⟩ := runVals_error_of_mem g.validators text (toRunOf g checks) herr
  refine ⟨e', ?_⟩
  unfold SafetyGuard.check
  have hnone : (if g.cache_enabled then lookupA (cacheKey text checks) g.cache else none)
      = none := by
    rcases hmiss with h | h
    · simp [h]
    · by_cases hc : g.cache_enabled <;> simp [hc, h]
  rw [hnone]
  unfold SafetyGuard.checkMiss
  rw [he']

/-- A validator that always raises, for the C7 witness. -/
def failingValidator : Validator := fun _ => .error (.vfail "boom")

/-- A guard whose single registered validator always raises. -/
def erroringGuard : SafetyGuard := { defaultGuard with validators := [("boom", failingValidator)] }

/-- C7 witness: on a guard with a raising validator, `check` returns the
error and the guard unchanged. -/
theorem checkErrorAtomic_witness :
    ∃ e', erroringGuard.check "hello".data none false = (.error e', erroringGuard) :=
  checkErrorAtomic erroringGuard "hello".data none false (Or.inr rfl)
    ⟨"boom", by decide, failingValidator, rfl, ⟨.vfail "boom", rfl⟩⟩

/-- `_update_cache` on a fresh key: below capacity the entry is appended;
at capacity the first-inserted entry is evicted first. -/
theorem updateCache_ok (size : Nat) (cache : List (String × SafetyResult)) (k : String)
    (r : SafetyResult) (hlen : cache.length ≤ size) (hsz : 1 ≤ size) :
    (cache.length < size ∧ updateCache size cache k r = .ok (cache ++ [(k, r)])) ∨
    (cache.length = size ∧ updateCache size cache k r = .ok (cache.tail ++ [(k, r)])) := by
  unfold updateCache
  by_cases hfull : cache.length ≥ size
  · right
    have heq : cache.length = size := le_antisymm hlen hfull
    refine ⟨heq, ?_⟩
    rw [if_pos hfull]
    cases cache with
    | nil => simp at heq; omega
    | cons c0 ct => rfl
  · left
    exact ⟨lt_of_not_ge hfull, by rw [if_neg hfull]⟩

/-- The cache state written by `commit`: bounded by `cache_size`, with
first-in-first-out eviction of the head (the oldest-inserted entry). -/
theorem commit_cache (g : SafetyGuard) (toRun : List String) (key : String)
    (result r : SafetyResult) (g' : SafetyGuard)
    (hen : g.cache_enabled = true)
    (hlen : g.cache.length ≤ g.cache_size)
    (hsz : 1 ≤ g.cache_size)
    (hok : commit g toRun key result = (.ok r, g')) :
    g'.cache.length ≤ g.cache_size ∧
    (g.cache.length = g.cache_size → g'.cache = g.cache.tail ++ [(key, r)]) := by
  unfold commit at hok
  have hgc : (if g.metrics_enabled
      then { g with metrics := updateMetrics g.metrics result toRun }
      else g).cache = g.cache := by split <;> rfl
  simp only [hgc] at hok
  simp only [hen, if_true] at hok
  rcases updateCache_ok g.cache_size g.cache key result hlen hsz with ⟨hlt, hupd⟩ | ⟨heq, hupd⟩
  · simp only [hupd, Prod.mk.injEq] at hok
    obtain ⟨h1, h2⟩ := hok
    injection h1 with h1'
    subst h1'
    constructor
    · rw [← h2]
      simp only [List.length_append, List.length_cons, List.length_nil]
      omega
    · intro habs
      omega
  · simp only [hupd, Prod.mk.injEq] at hok
    obtain ⟨h1, h2⟩ := hok
    injection h1 with h1'
    subst h1'
    constructor
    · rw [← h2]
      simp only [List.length_append, List.length_tail, List.length_cons, List.length_nil]
      omega
    · intro _
      rw [← h2]

/-- C8: bounded FIFO cache.  After every completed `check` on a guard with
caching enabled (capacity at least 1, cache within capacity), the cache still
holds at most `cache_size` entries, and when the write happens at capacity
the evicted entry is the head of the insertion-ordered cache — the
oldest-inserted one, regardless of reads. -/
theorem cacheBoundedFifo (g : SafetyGuard) (text : List Char) (checks : Option (List String))
    (rd : Bool) (r : SafetyResult) (g' : SafetyGuard)
    (hen : g.cache_enabled = true)
    (hlen : g.cache.length ≤ g.cache_size)
    (hsz : 1 ≤ g.cache_size)
    (hok : g.check text checks rd = (.ok r, g')) :
    g'.cache.length ≤ g.cache_size ∧
    (lookupA (cacheKey text checks) g.cache = none → g.cache.length = g.cache_size →
      g'.cache = g.cache.tail ++ [(cacheKey text checks, r)]) := by
  unfold SafetyGuard.check at hok
  cases hl : lookupA (cacheKey text checks) g.cache with
  | some r0 =>
    simp only [hen, if_true, hl, Prod.mk.injEq] at hok
    obtain ⟨h1, h2⟩ := hok
    constructor
    · rw [← h2]
      exact hlen
    · intro hnone
      exact Option.noConfusion hnone
  | none =>
    simp only [hen, if_true, hl] at hok
    unfold SafetyGuard.checkMiss at hok
    cases hrv : runVals g.validators (toRunOf g checks) text with
    | error e =>
      simp only [hrv, Prod.mk.injEq] at hok
      exact Except.noConfusion hok.1
    | ok rs =>
      simp only [hrv] at hok
      have := commit_cache g (toRunOf g checks) (cacheKey text checks)
        (assemble g text rd rs) r g' hen hlen hsz hok
      exact ⟨this.1, fun _ h2 => this.2 h2⟩

/-- A guard for the C8 witness: capacity-1 cache holding one old entry, no
validators, no rules. -/
def fifoGuard : SafetyGuard :=
  { thresholds := defaultThresholds,
    cache_enabled := true,
    cache := [("old", ⟨true, none, none, none, 0⟩)],
    cache_size := 1,
    metrics_enabled := false,
    metrics := emptyMetrics,
    validators := [],
    custom_rules := [] }

/-- The result the C8 witness call produces. -/
def fifoResult : SafetyResult := ⟨true, none, none, none, 0⟩

/-- The guard state after the C8 witness call: the old entry evicted, the new
one appended. -/
def fifoGuardAfter : SafetyGuard :=
  { fifoGuard with cache := [(cacheKey "x".data none, fifoResult)] }

/-- C8 witness: on the capacity-1 guard a completed `check` keeps the cache
at one entry and replaces the oldest-inserted entry with the new one. -/
theorem cacheBoundedFifo_witness :
    fifoGuardAfter.cache.length ≤ fifoGuard.cache_size ∧
    (lookupA (cacheKey "x".data none) fifoGuard.cache = none →
      fifoGuard.cache.length = fifoGuard.cache_size →
      fifoGuardAfter.cache = fifoGuard.cache.tail ++ [(cacheKey "x".data none, fifoResult)]) :=
  cacheBoundedFifo fifoGuard "x".data none false fifoResult fifoGuardAfter rfl
    (by decide) (by decide) rfl

/-- C9 (counterexample): a `check` whose entire check list is the unknown
name `bogus` does not fail with any error — it silently returns a successful
`is_safe = true` verdict (no `ConfigurationError` exists anywhere in the
code). -/
theorem unknownCheckNoError_cex :
    (defaultGuard.check "hello".data (some ["bogus"]) false).1 =
      .ok ⟨true, none, none, none, 0⟩ := by decide

/-- Unknown names are skipped by the validator loop: evaluating a request
list gives the same outcome as evaluating only its configured names. -/
theorem runVals_filter_known (vals : List (String × Validator)) (text : List Char) :
    ∀ cs : List String,
      runVals vals cs text =
        runVals vals (cs.filter fun n => (lookupA n vals).isSome) text := by
  intro cs
  induction cs with
  | nil => rfl
  | cons n rest ih =>
    cases hl : lookupA n vals with
    | none =>
      have hf : (n :: rest).filter (fun n => (lookupA n vals).isSome) =
          rest.filter (fun n => (lookupA n vals).isSome) := by
        simp [List.filter_cons, hl]
      rw [hf, runVals_cons]
      simp only [hl]
      exact ih
    | some v =>
      have hf : (n :: rest).filter (fun n => (lookupA n vals).isSome) =
          n :: rest.filter (fun n => (lookupA n vals).isSome) := by
        simp [List.filter_cons, hl]
      rw [hf, runVals_cons, runVals_cons]
      simp only [hl, ← ih]

/-- The result component of `commit` does not depend on the metrics key list
or on the cache key (they only affect the stored state). -/
theorem commit_fst (g : SafetyGuard) (t1 t2 : List String) (k1 k2 : String)
    (result : SafetyResult) :
    (commit g t1 k1 result).1 = (commit g t2 k2 result).1 := by
  unfold commit
  have h1 : (if g.metrics_enabled
      then { g with metrics := updateMetrics g.metrics result t1 } else g).cache = g.cache := by
    split <;> rfl
  have h2 : (if g.metrics_enabled
      then { g with metrics := updateMetrics g.metrics result t2 } else g).cache = g.cache := by
    split <;> rfl
  simp only [h1, h2]
  by_cases hce : g.cache_enabled = true
  · simp only [hce, if_true]
    unfold updateCache
    by_cases hfull : g.cache.length ≥ g.cache_size
    · rw [if_pos hfull, if_pos hfull]
      cases g.cache <;> rfl
    · rw [if_neg hfull, if_neg hfull]
  · rw [if_neg hce, if_neg hce]

/-- C9 (amended): a check list containing unknown names is not rejected;
the unknown names are silently ignored and the verdict equals the one
computed from the remaining known checks (on a cold cache, and as long as
neither list is empty, which would fall back to all validators). -/
theorem unknownChecksIgnored (g : SafetyGuard) (text : List Char) (cs : List String) (rd : Bool)
    (hmiss : g.cache_enabled = false ∨
      (lookupA (cacheKey text (some cs)) g.cache = none ∧
       lookupA (cacheKey text (some (cs.filter fun n => (lookupA n g.validators).isSome)))
         g.cache = none))
    (hne : cs ≠ [])
    (hkne : (cs.filter fun n => (lookupA n g.validators).isSome) ≠ []) :
    (g.check text (some cs) rd).1 =
      (g.check text (some (cs.filter fun n => (lookupA n g.validators).isSome)) rd).1 := by
  have hto1 : toRunOf g (some cs) = cs := by
    cases cs with
    | nil => exact absurd rfl hne
    | cons a b => rfl
  have hto2 : toRunOf g (some (cs.filter fun n => (lookupA n g.validators).isSome)) =
      cs.filter fun n => (lookupA n g.validators).isSome := by
    cases hh : cs.filter fun n => (lookupA n g.validators).isSome with
    | nil => exact absurd hh hkne
    | cons a b => rfl
  have hn1 : (if g.cache_enabled
      then lookupA (cacheKey text (some cs)) g.cache else none) = none := by
    rcases hmiss with h | ⟨ha, _⟩
    · simp [h]
    · by_cases hc : g.cache_enabled <;> simp [hc, ha]
  have hn2 : (if g.cache_enabled
      then lookupA (cacheKey text (some (cs.filter fun n => (lookupA n g.validators).isSome)))
        g.cache else none) = none := by
    rcases hmiss with h | ⟨_, hb⟩
    · simp [h]
    · by_cases hc : g.cache_enabled <;> simp [hc, hb]
  unfold SafetyGuard.check
  simp only [hn1, hn2]
  unfold SafetyGuard.checkMiss
  rw [hto1, hto2, ← runVals_filter_known]
  cases hrv : runVals g.validators cs text with
  | error e => simp only [hrv]
  | ok rs =>
    simp only [hrv]
    exact commit_fst g cs (cs.filter fun n => (lookupA n g.validators).isSome) _ _ _

/-- C9 witness: requesting `["bogus", "pii"]` on a fresh default guard gives
the same verdict as requesting `["pii"]` alone. -/
theorem unknownChecksIgnored_witness :
    (defaultGuard.check "My SSN is 123-45-6789".data (some ["bogus", "pii"]) false).1 =
      (defaultGuard.check "My SSN is 123-45-6789".data (some ["pii"]) false).1 :=
  unknownChecksIgnored defaultGuard "My SSN is 123-45-6789".data ["bogus", "pii"] false
    (Or.inr ⟨rfl, rfl⟩) (by decide) (by decide)

/-- C10: the default threshold table has no `pii` key (only `pii_risk`), so
`check` compares the `pii` score against the 0.5 `thresholds.get` fallback,
and any text whose PII score exceeds 0.5 — not the documented 0.9 — is
marked unsafe by a default guard. -/
theorem piiThresholdFallback :
    lookupA "pii" defaultThresholds = none ∧
    thresholdGet defaultThresholds "pii" = 1/2 ∧
    ∀ text : List Char, (piiValidate text).score > 1/2 →
      ((defaultGuard.check text none false).1.map fun res => res.is_safe) = .ok false := by
  refine ⟨rfl, rfl, fun text h => ?_⟩
  have hred : ((defaultGuard.check text none false).1.map fun res => res.is_safe) =
      .ok ((applyThresholds defaultThresholds
        [("toxicity", toxValidate text),
         ("pii", ((piiValidate text).score, (piiValidate text).reason)),
         ("prompt_injection", piValidate text)]).1) := rfl
  rw [hred]
  unfold applyThresholds
  simp only [List.foldl_cons, List.foldl_nil]
  rw [show thresholdGet defaultThresholds "pii" = (1 : ℚ)/2 from rfl]
  split_ifs <;> rfl

/-- C10 witness: a lone email address scores 0.7 and is blocked by the
default guard, although 0.7 is below the documented 0.9 `pii_risk`
threshold. -/
theorem piiThresholdFallback_witness :
    (piiValidate "bob@site.org".data).score > 1/2 ∧
    ((defaultGuard.check "bob@site.org".data none false).1.map fun res => res.is_safe) =
      .ok false :=
  ⟨by decide, piiThresholdFallback.2.2 "bob@site.org".data (by decide)⟩

end LlmGuard
